import Mathlib

/-!
Verification of the redpanda `tools/metadata_viewer` offline log and
kv-store decoder (`storage.py`, `kvstore.py`) against its specification.

The Python modules are shallowly embedded below: byte streams are `List Nat`
(each element a byte value `< 256`), machine integers are `Int`/`Nat` with
explicit two's-complement conversions, fallible operations return
`Except PyErr`.  The external `crc32c` library is modelled as the standard
CRC-32C (Castagnoli) checksum over the reflected polynomial `0x82F63B78`
with initial and final complement, matching the chaining convention of the
library (`crc32c(b, crc32c(a)) = crc32c(a ++ b)`).
-/

namespace RP

/-- Error outcomes of the embedded Python code: `assertFail` models a failing
`assert` statement, `corruptBatch` the `CorruptBatchError` exception,
`truncated` a short read inside the byte reader (struct / truncation errors),
`fileNotFound` the `FileNotFoundError` raised by `open` on a missing path,
and `typeErr` a Python `TypeError`. -/
inductive PyErr
  | assertFail
  | corruptBatch
  | truncated
  | fileNotFound
  | typeErr
deriving DecidableEq

instance {ε α : Type} [DecidableEq ε] [DecidableEq α] :
    DecidableEq (Except ε α) := fun x y =>
  match x, y with
  | .error a, .error b =>
    if h : a = b then isTrue (congrArg Except.error h)
    else isFalse (fun hh => h (Except.error.inj hh))
  | .ok a, .ok b =>
    if h : a = b then isTrue (congrArg Except.ok h)
    else isFalse (fun hh => h (Except.ok.inj hh))
  | .error _, .ok _ => isFalse (fun hh => Except.noConfusion hh)
  | .ok _, .error _ => isFalse (fun hh => Except.noConfusion hh)

/-! ## Little/big-endian byte packing and two's complement -/

/-- Encode `n` as `w` bytes, little-endian (the layout of `struct.pack("<…")`). -/
def leBytes : Nat → Nat → List Nat
  | 0, _ => []
  | w + 1, n => (n % 256) :: leBytes w (n / 256)

/-- Encode `n` as `w` bytes, big-endian (the layout of `struct.pack(">…")`). -/
def beBytes (w n : Nat) : List Nat := (leBytes w n).reverse

/-- Decode a little-endian byte list to a natural number. -/
def fromLE : List Nat → Nat
  | [] => 0
  | b :: bs => b + 256 * fromLE bs

/-- Reinterpret a `bits`-wide unsigned value as signed two's complement,
as `struct.unpack` does for the signed format characters. -/
def toSigned (bits : Nat) (n : Nat) : Int :=
  if n < 2 ^ (bits - 1) then (n : Int) else (n : Int) - 2 ^ bits

/-- The `bits`-wide two's-complement bit pattern of a signed value,
as `struct.pack` produces for in-range signed values. -/
def toTwos (bits : Nat) (v : Int) : Nat :=
  (v % ((2 : Int) ^ bits)).toNat

/-- Flip bit `j` (0-based, `j < 8`) of the byte at index `k` of a byte list. -/
def flipAt : List Nat → Nat → Nat → List Nat
  | [], _, _ => []
  | b :: bs, 0, j => (b ^^^ 2 ^ j) :: bs
  | b :: bs, k + 1, j => b :: flipAt bs k j

/-! ## CRC-32C (model of the external `crc32c` library) -/

/-- The reflected CRC-32C (Castagnoli) polynomial. -/
def CRC32C_POLY : Nat := 0x82F63B78

/-- One bit step of the reflected CRC-32C computation. -/
def crcStep (s : Nat) : Nat :=
  (s >>> 1) ^^^ (if s.testBit 0 then CRC32C_POLY else 0)

/-- Iterate the CRC bit step `n` times. -/
def crcSteps : Nat → Nat → Nat
  | 0, s => s
  | n + 1, s => crcSteps n (crcStep s)

/-- Absorb one byte into the CRC state. -/
def crcByte (s b : Nat) : Nat := crcSteps 8 (s ^^^ b)

/-- Raw CRC state update over a byte list. -/
def crc32cRaw (bs : List Nat) (s : Nat) : Nat := bs.foldl crcByte s

/-- The `crc32c.crc32c(data, value)` function of the external library:
initial and final complement around the raw state update, so that
`crc32c b (crc32c a 0) = crc32c (a ++ b) 0`. -/
def crc32c (bs : List Nat) (value : Nat) : Nat :=
  crc32cRaw bs (value ^^^ 0xFFFFFFFF) ^^^ 0xFFFFFFFF

/-! ## `storage.py`: batch header layout and validation -/

/-- Embeds `HEADER_SIZE = struct.calcsize("<IiqbIhiqqqhii")`: 4+4+8+1+4+2+4+8+8+8+2+4+4. -/
def HEADER_SIZE : Nat := 61

/-- The 13 header fields of `Header` in `storage.py`, as the Python `int`
values produced by `struct.unpack(HDR_FMT_RP, data)`: `header_crc` and `crc`
use the unsigned format `I`, all other fields are signed. -/
structure Header where
  header_crc : Int
  batch_size : Int
  base_offset : Int
  type : Int
  crc : Int
  attrs : Int
  delta : Int
  first_ts : Int
  max_ts : Int
  producer_id : Int
  producer_epoch : Int
  base_seq : Int
  record_count : Int
deriving DecidableEq

/-- Embeds `struct.unpack(HDR_FMT_RP, data)` on a 61-byte little-endian buffer. -/
def unpackHeader (bs : List Nat) : Header :=
  { header_crc := (fromLE (bs.take 4) : Int)
  , batch_size := toSigned 32 (fromLE ((bs.drop 4).take 4))
  , base_offset := toSigned 64 (fromLE ((bs.drop 8).take 8))
  , type := toSigned 8 (fromLE ((bs.drop 16).take 1))
  , crc := (fromLE ((bs.drop 17).take 4) : Int)
  , attrs := toSigned 16 (fromLE ((bs.drop 21).take 2))
  , delta := toSigned 32 (fromLE ((bs.drop 23).take 4))
  , first_ts := toSigned 64 (fromLE ((bs.drop 27).take 8))
  , max_ts := toSigned 64 (fromLE ((bs.drop 35).take 8))
  , producer_id := toSigned 64 (fromLE ((bs.drop 43).take 8))
  , producer_epoch := toSigned 16 (fromLE ((bs.drop 51).take 2))
  , base_seq := toSigned 32 (fromLE ((bs.drop 53).take 4))
  , record_count := toSigned 32 (fromLE ((bs.drop 57).take 4)) }

/-- Embeds `struct.pack("<iqbIhiqqqhii", *header[1:])` — fields 2..13 (everything
except `header_crc`) packed little-endian; input of the `header_crc` check. -/
def packNoCrc (h : Header) : List Nat :=
  leBytes 4 (toTwos 32 h.batch_size) ++ leBytes 8 (toTwos 64 h.base_offset) ++
  leBytes 1 (toTwos 8 h.type) ++ leBytes 4 (toTwos 32 h.crc) ++
  leBytes 2 (toTwos 16 h.attrs) ++ leBytes 4 (toTwos 32 h.delta) ++
  leBytes 8 (toTwos 64 h.first_ts) ++ leBytes 8 (toTwos 64 h.max_ts) ++
  leBytes 8 (toTwos 64 h.producer_id) ++ leBytes 2 (toTwos 16 h.producer_epoch) ++
  leBytes 4 (toTwos 32 h.base_seq) ++ leBytes 4 (toTwos 32 h.record_count)

/-- Embeds `Batch._crc_header_be_bytes`: `struct.pack(">hiqqqhii", *header[5:])` —
fields 6..13 re-packed big-endian; the seed input of the `crc` check. -/
def crc_header_be_bytes (h : Header) : List Nat :=
  beBytes 2 (toTwos 16 h.attrs) ++ beBytes 4 (toTwos 32 h.delta) ++
  beBytes 8 (toTwos 64 h.first_ts) ++ beBytes 8 (toTwos 64 h.max_ts) ++
  beBytes 8 (toTwos 64 h.producer_id) ++ beBytes 2 (toTwos 16 h.producer_epoch) ++
  beBytes 4 (toTwos 32 h.base_seq) ++ beBytes 4 (toTwos 32 h.record_count)

/-- The full 61-byte on-disk header encoding (`header_crc` then fields 2..13). -/
def packFullHeader (h : Header) : List Nat :=
  leBytes 4 (toTwos 32 h.header_crc) ++ packNoCrc h

/-- Embeds `all(map(lambda v: v == 0, header))` in `Batch.from_stream`. -/
def allZeroHeader (h : Header) : Bool :=
  h.header_crc == 0 && h.batch_size == 0 && h.base_offset == 0 &&
  h.type == 0 && h.crc == 0 && h.attrs == 0 && h.delta == 0 &&
  h.first_ts == 0 && h.max_ts == 0 && h.producer_id == 0 &&
  h.producer_epoch == 0 && h.base_seq == 0 && h.record_count == 0

/-- A decoded batch: index, validated header, raw record-region bytes. -/
structure Batch where
  index : Int
  header : Header
  records : List Nat
deriving DecidableEq

/-- Embeds `Batch.__init__`: recompute `header_crc` over fields 2..13 little-endian
and `crc` as CRC32C of fields 6..13 big-endian continued over the raw record
bytes; a mismatch of either raises `CorruptBatchError`. -/
def Batch.init (index : Int) (header : Header) (records : List Nat) :
    Except PyErr Batch :=
  if header.header_crc = (crc32c (packNoCrc header) 0 : Int) then
    if header.crc = (crc32c records (crc32c (crc_header_be_bytes header) 0) : Int) then
      .ok ⟨index, header, records⟩
    else .error .corruptBatch
  else .error .corruptBatch

/-- Embeds `Batch.last_offset`. -/
def Batch.last_offset (b : Batch) : Int :=
  b.header.base_offset + b.header.record_count - 1

/-- Embeds `Batch.from_stream(f, index)` over the remaining bytes `s` of the file:
returns `ok none` for the clean EndOfStream return of `None`,
`ok (some (batch, rest))` for a decoded batch and the remaining stream, and
errors for the `assert` statements and `CorruptBatchError`.  A short
`f.read(n)` returns the bytes that are available (`take`), as in Python. -/
def Batch.from_stream (s : List Nat) (index : Int) :
    Except PyErr (Option (Batch × List Nat)) :=
  let data := s.take HEADER_SIZE
  if data.length = HEADER_SIZE then
    let header := unpackHeader data
    if allZeroHeader header then .ok none
    else
      let records_size : Int := header.batch_size - (HEADER_SIZE : Int)
      let rest := s.drop HEADER_SIZE
      let rdata := if records_size < 0 then rest else rest.take records_size.toNat
      if (rdata.length : Int) = records_size then
        (Batch.init index header rdata).map (fun b => some (b, rest.drop rdata.length))
      else .error .assertFail
  else if data.length = 0 then .ok none
  else .error .assertFail

/-- One `BatchIterator` loop with explicit fuel: collects batches until the
clean EndOfStream, propagating decode errors.  `segmentBatches` supplies
fuel `|s| + 1`, which is sufficient because every decoded batch consumes at
least `HEADER_SIZE` bytes of the stream. -/
def readBatchesFuel : Nat → List Nat → Int → Except PyErr (List Batch)
  | 0, _, _ => .ok []
  | fuel + 1, s, idx =>
    match Batch.from_stream s idx with
    | .error e => .error e
    | .ok none => .ok []
    | .ok (some (b, rest)) =>
      match readBatchesFuel fuel rest (idx + 1) with
      | .error e => .error e
      | .ok bs => .ok (b :: bs)

/-- Iterating a `Segment`: all batches of one segment file. -/
def segmentBatches (s : List Nat) : Except PyErr (List Batch) :=
  readBatchesFuel (s.length + 1) s 0

/-! ## Byte Reader

Modelled from the spec: the repository's byte-reader module (`reader.py`,
imported as `from reader import Reader` by both `storage.py` and
`kvstore.py`) is not present under `src/`.  Its operations are modelled from
spec section 4.4 (Byte Reader): fixed-width little-endian integers, zigzag
LEB128 varints, `read_bytes(n)` failing when fewer than `n` bytes remain,
length-prefixed buffers, and `read_optional` reading a one-byte presence
flag.  The reader state is the list of not-yet-consumed bytes. -/
structure Reader where
  data : List Nat
deriving DecidableEq

/-- Modelled from the spec: `read_bytes(n)` fails with a truncation error if
fewer than `n` bytes are available, else consumes and returns them. -/
def Reader.read_bytes (r : Reader) (n : Nat) : Except PyErr (List Nat × Reader) :=
  if n ≤ r.data.length then .ok (r.data.take n, ⟨r.data.drop n⟩)
  else .error .truncated

/-- Modelled from the spec: read `w` bytes as an unsigned little-endian value. -/
def Reader.readUnsigned (r : Reader) (w : Nat) : Except PyErr (Nat × Reader) :=
  match r.read_bytes w with
  | .error e => .error e
  | .ok (bs, r') => .ok (fromLE bs, r')

/-- Modelled from the spec: read `w` bytes as a signed little-endian value. -/
def Reader.readSigned (r : Reader) (w : Nat) : Except PyErr (Int × Reader) :=
  match r.read_bytes w with
  | .error e => .error e
  | .ok (bs, r') => .ok (toSigned (8 * w) (fromLE bs), r')

def Reader.read_int8 (r : Reader) : Except PyErr (Int × Reader) := r.readSigned 1

def Reader.read_int16 (r : Reader) : Except PyErr (Int × Reader) := r.readSigned 2

def Reader.read_int32 (r : Reader) : Except PyErr (Int × Reader) := r.readSigned 4

def Reader.read_int64 (r : Reader) : Except PyErr (Int × Reader) := r.readSigned 8

def Reader.read_uint8 (r : Reader) : Except PyErr (Nat × Reader) := r.readUnsigned 1

def Reader.read_uint32 (r : Reader) : Except PyErr (Nat × Reader) := r.readUnsigned 4

def Reader.read_uint64 (r : Reader) : Except PyErr (Nat × Reader) := r.readUnsigned 8

/-- Modelled from the spec: the unsigned LEB128 accumulation loop of
`read_varint` (7-bit groups, high bit = continuation). -/
def readUvarintAux : List Nat → Nat → Nat → Except PyErr (Nat × List Nat)
  | [], _, _ => .error .truncated
  | b :: bs, shift, acc =>
    let acc := acc + (b % 128) * 2 ^ shift
    if b < 128 then .ok (acc, bs)
    else readUvarintAux bs (shift + 7) acc

/-- Modelled from the spec: zigzag decoding of the accumulated value. -/
def zigzag (n : Nat) : Int :=
  if n % 2 = 0 then (n / 2 : Int) else -(n / 2 : Int) - 1

/-- Modelled from the spec: `read_varint` — zigzag-encoded signed LEB128. -/
def Reader.read_varint (r : Reader) : Except PyErr (Int × Reader) :=
  match readUvarintAux r.data 0 0 with
  | .error e => .error e
  | .ok (n, rest) => .ok (zigzag n, ⟨rest⟩)

/-- Modelled from the spec: `read_iobuf` — a 32-bit length prefix followed by
that many raw bytes. -/
def Reader.read_iobuf (r : Reader) : Except PyErr (List Nat × Reader) :=
  match r.read_int32 with
  | .error e => .error e
  | .ok (n, r') => r'.read_bytes n.toNat

/-- Modelled from the spec: `read_optional(decoder)` — a one-byte presence
flag; `0` means absent, anything else delegates to the decoder. -/
def Reader.read_optional (r : Reader)
    (f : Reader → Except PyErr (List Nat × Reader)) :
    Except PyErr (Option (List Nat) × Reader) :=
  match r.read_int8 with
  | .error e => .error e
  | .ok (flag, r') =>
    if flag = 0 then .ok (none, r')
    else match f r' with
      | .error e => .error e
      | .ok (v, r'') => .ok (some v, r'')

/-! ## `storage.py`: records -/

/-- A record header key/value pair (`RecordHeader` in `storage.py`). -/
structure RecordHeader where
  key : List Nat
  value : List Nat
deriving DecidableEq

/-- A decoded record (`Record` in `storage.py`).  `key`/`value` are `none`
when the corresponding length was not positive (Python `None`). -/
structure Record where
  length : Int
  attrs : Int
  timestamp_delta : Int
  offset_delta : Int
  key : Option (List Nat)
  value : Option (List Nat)
  headers : List RecordHeader
deriving DecidableEq

/-- The key/value field pattern of `RecordIter.__next__`: read a varint
length; only when it is strictly positive read that many bytes, otherwise
the field is `None` and nothing further is consumed. -/
def readKeyField (r : Reader) : Except PyErr (Option (List Nat) × Reader) :=
  match r.read_varint with
  | .error e => .error e
  | .ok (len, r') =>
    if len > 0 then
      match r'.read_bytes len.toNat with
      | .error e => .error e
      | .ok (bs, r'') => .ok (some bs, r'')
    else .ok (none, r')

/-- Embeds `RecordIter._parse_header`: varint-length key bytes then varint-length
value bytes (a non-positive length reads zero bytes). -/
def parse_record_header (r : Reader) : Except PyErr (RecordHeader × Reader) := do
  let (k_sz, r) ← r.read_varint
  let (key, r) ← r.read_bytes k_sz.toNat
  let (v_sz, r) ← r.read_varint
  let (value, r) ← r.read_bytes v_sz.toNat
  .ok (⟨key, value⟩, r)

/-- The `for i in range(0, hdr_size)` loop of `RecordIter.__next__`. -/
def readRecHeaders : Nat → Reader → Except PyErr (List RecordHeader × Reader)
  | 0, r => .ok ([], r)
  | n + 1, r => do
    let (h, r) ← parse_record_header r
    let (hs, r) ← readRecHeaders n r
    .ok (h :: hs, r)

/-- Embeds `RecordIter.__next__` for a single record: length, attrs,
timestamp_delta, offset_delta, key, value, header count, headers. -/
def recordNext (r : Reader) : Except PyErr (Record × Reader) := do
  let (len, r) ← r.read_varint
  let (attrs, r) ← r.read_int8
  let (timestamp_delta, r) ← r.read_varint
  let (offset_delta, r) ← r.read_varint
  let (key, r) ← readKeyField r
  let (value, r) ← readKeyField r
  let (hdr_size, r) ← r.read_varint
  let (headers, r) ← readRecHeaders hdr_size.toNat r
  .ok (⟨len, attrs, timestamp_delta, offset_delta, key, value, headers⟩, r)

/-- Embeds `record_count` iterations of `RecordIter.__next__`. -/
def iterRecords : Nat → Reader → Except PyErr (List Record)
  | 0, _ => .ok []
  | n + 1, r => do
    let (rec, r') ← recordNext r
    let rest ← iterRecords n r'
    .ok (rec :: rest)

/-- Iterating a `Batch` (`Batch.__iter__` / `RecordIter`): decode
`record_count` records from the raw record-region bytes.  A negative
`record_count` makes the Python iterator decrement past zero and keep
reading records until the finite record region is exhausted, which raises;
this is modelled as a truncation error. -/
def batchRecords (b : Batch) : Except PyErr (List Record) :=
  if b.header.record_count < 0 then .error .truncated
  else iterRecords b.header.record_count.toNat ⟨b.records⟩

/-! ## `kvstore.py`: snapshot -/

/-- Embeds `SnapshotHeader` namedtuple: `struct.unpack("<IIbi", data)`. -/
structure SnapshotHeader where
  header_crc : Int
  metadata_crc : Int
  version : Int
  metadata_size : Int
deriving DecidableEq

/-- Embeds `SNAP_HDR_SIZE = struct.calcsize("<IIbi")` = 4+4+1+4. -/
def SNAP_HDR_SIZE : Nat := 13

/-- Embeds `struct.unpack(SNAP_HDR_FMT, data)` on a 13-byte buffer. -/
def unpackSnapHeader (bs : List Nat) : SnapshotHeader :=
  { header_crc := (fromLE (bs.take 4) : Int)
  , metadata_crc := (fromLE ((bs.drop 4).take 4) : Int)
  , version := toSigned 8 (fromLE ((bs.drop 8).take 1))
  , metadata_size := toSigned 32 (fromLE ((bs.drop 9).take 4)) }

/-- The fields of a `Snapshot` object after `Snapshot.read`: `header`,
`meta` and `data` stay `None` when the file is shorter than
`SNAP_HDR_SIZE`. -/
structure SnapshotData where
  header : Option SnapshotHeader
  meta : Option (List Nat)
  data : Option (List Nat)
deriving DecidableEq

/-- Embeds `Snapshot.read`: `open` raises `FileNotFoundError` on a missing path
(`file = none`); otherwise read the 13-byte header, then `metadata_size`
bytes of metadata and the remaining bytes of data.  A negative
`metadata_size` makes Python's `f.read` consume the whole remainder. -/
def Snapshot.read (file : Option (List Nat)) : Except PyErr SnapshotData :=
  match file with
  | none => .error .fileNotFound
  | some bytes =>
    let d := bytes.take SNAP_HDR_SIZE
    if d.length = SNAP_HDR_SIZE then
      let hdr := unpackSnapHeader d
      let rest := bytes.drop SNAP_HDR_SIZE
      if hdr.metadata_size < 0 then
        .ok ⟨some hdr, some rest, some []⟩
      else
        .ok ⟨some hdr, some (rest.take hdr.metadata_size.toNat),
          some (rest.drop hdr.metadata_size.toNat)⟩
    else .ok ⟨none, none, none⟩

/-- A snapshot-embedded batch (`SnapshotBatch` in `kvstore.py`). -/
structure SnapshotBatch where
  header : Header
  records : List Record
deriving DecidableEq

/-- The record loop of `SnapshotBatch.from_stream`: size, attr, timestamp,
offset delta, a skipped int32, length-prefixed key, a skipped int32,
length-prefixed value, a skipped int32. -/
def readSnapRecords : Nat → Reader → Except PyErr (List Record × Reader)
  | 0, r => .ok ([], r)
  | n + 1, r => do
    let (sz, r) ← r.read_uint32
    let (attr, r) ← r.read_int8
    let (ts, r) ← r.read_int64
    let (o_delta, r) ← r.read_int32
    let (_, r) ← r.read_int32
    let (key, r) ← r.read_iobuf
    let (_, r) ← r.read_int32
    let (v, r) ← r.read_iobuf
    let (_, r) ← r.read_int32
    let (rest, r) ← readSnapRecords n r
    .ok (⟨(sz : Int), attr, ts, o_delta, some key, some v, []⟩ :: rest, r)

/-- Embeds `SnapshotBatch.from_stream`: 15 fixed-width header fields (no CRC
verification), then `record_count` records.  A negative `record_count`
yields an empty Python `range`, hence no records. -/
def SnapshotBatch.from_stream (r : Reader) : Except PyErr SnapshotBatch := do
  let (h_crc, r) ← r.read_uint32
  let (h_sz, r) ← r.read_int32
  let (h_bo, r) ← r.read_int64
  let (h_tp, r) ← r.read_int8
  let (h_batch_crc, r) ← r.read_int32
  let (h_attrs, r) ← r.read_int16
  let (h_lod, r) ← r.read_int32
  let (first_ts, r) ← r.read_int64
  let (last_ts, r) ← r.read_int64
  let (producer_id, r) ← r.read_int64
  let (producer_epoch, r) ← r.read_int16
  let (base_seq, r) ← r.read_int32
  let (record_cnt, r) ← r.read_int32
  let (_term, r) ← r.read_int64
  let (_compressed, r) ← r.read_int8
  let header : Header := ⟨(h_crc : Int), h_sz, h_bo, h_tp, h_batch_crc,
    h_attrs, h_lod, first_ts, last_ts, producer_id, producer_epoch,
    base_seq, record_cnt⟩
  let (records, _) ← readSnapRecords record_cnt.toNat r
  .ok ⟨header, records⟩

/-- Embeds `KvSnapshot.__init__` + `KvSnapshot.decode`: read the snapshot file,
decode the metadata as an `i64` last offset, then the data blob as an
`i32` length prefix followed by one embedded `SnapshotBatch`.  `None`
metadata/data behave like empty buffers (`BytesIO(None)`). -/
def KvSnapshot.ofFile (file : Option (List Nat)) :
    Except PyErr (Int × SnapshotBatch) := do
  let sd ← Snapshot.read file
  let (last_offset, _) ← Reader.read_int64 ⟨sd.meta.getD []⟩
  let r0 : Reader := ⟨sd.data.getD []⟩
  let (data_sz, r1) ← r0.read_int32
  let (bytes, _) ← r1.read_bytes data_sz.toNat
  let sb ← SnapshotBatch.from_stream ⟨bytes⟩
  .ok (last_offset, sb)

/-! ## `kvstore.py`: record decoding and the store -/

/-- Embeds `KvStoreRecordDecoder._decode_ks`. -/
def decode_ks (ks : Int) : String :=
  if ks = 0 then "testing"
  else if ks = 1 then "consensus"
  else if ks = 2 then "storage"
  else if ks = 3 then "cluster"
  else "unknown"

/-- The decoded dictionary returned by `KvStoreRecordDecoder.decode`.
The derived `ts` string (a `datetime` rendering of `epoch`) is not
modelled. -/
structure KvEntry where
  epoch : Int
  offset : Int
  key_space : String
  key_buf : List Nat
  data : Option (List Nat)
deriving DecidableEq

/-- The value side of `KvStoreRecordDecoder.decode`:
`read_optional(lambda r: r.read_iobuf())` on the record's value buffer,
with Python truthiness (`if data:`) collapsing an empty buffer to `None`. -/
def readValueData (value : Option (List Nat)) :
    Except PyErr (Option (List Nat)) :=
  match Reader.read_optional ⟨value.getD []⟩ (fun rr => rr.read_iobuf) with
  | .error e => .error e
  | .ok (d, _) =>
    .ok (match d with
      | some bs => if bs.isEmpty then none else some bs
      | none => none)

/-- Embeds `KvStoreRecordDecoder.decode`: assert the batch type is 4, read the
keyspace byte from the key buffer, keep the remaining key bytes, and read
the optional value buffer. -/
def KvStoreRecordDecoder.decode (header : Header) (record : Record) :
    Except PyErr KvEntry :=
  if header.type = 4 then
    match Reader.read_int8 ⟨record.key.getD []⟩ with
    | .error e => .error e
    | .ok (keyspace, k) =>
      match readValueData record.value with
      | .error e => .error e
      | .ok d =>
        .ok ⟨header.first_ts, header.base_offset + record.offset_delta,
          decode_ks keyspace, k.data, d⟩
  else .error .assertFail

/-- The store mapping: Python dict keyed by `(key_space, key_buf)`. -/
def KvMap : Type := (String × List Nat) → Option (List Nat)

/-- The empty store. -/
def emptyKv : KvMap := fun _ => none

/-- Dict assignment `self.kv[key] = data`. -/
def kvUpdate (kv : KvMap) (k : String × List Nat) (v : List Nat) : KvMap :=
  fun k2 => if k2 = k then some v else kv k2

/-- Embeds `KvStore._apply`: write `(key_space, key_buf) ↦ data` only when the
entry's data is not `None`. -/
def KvStore.apply (kv : KvMap) (entry : KvEntry) : KvMap :=
  match entry.data with
  | none => kv
  | some d => kvUpdate kv (entry.key_space, entry.key_buf) d

/-- The per-batch loop body of `KvStore.decode`: decode each record with
`KvStoreRecordDecoder` and apply it to the store. -/
def KvStore.applyAll (kv : KvMap) (header : Header) :
    List Record → Except PyErr KvMap
  | [] => .ok kv
  | r :: rest =>
    match KvStoreRecordDecoder.decode header r with
    | .error e => .error e
    | .ok e => KvStore.applyAll (KvStore.apply kv e) header rest

/-- The per-segment loop of `KvStore.decode`: read batches one at a time
(`BatchIterator`) and apply each batch's records, with fuel as in
`readBatchesFuel`. -/
def KvStore.applySegment : Nat → KvMap → List Nat → Int → Except PyErr KvMap
  | 0, kv, _, _ => .ok kv
  | fuel + 1, kv, s, idx =>
    match Batch.from_stream s idx with
    | .error e => .error e
    | .ok none => .ok kv
    | .ok (some (b, rest)) =>
      match batchRecords b with
      | .error e => .error e
      | .ok rs =>
        match KvStore.applyAll kv b.header rs with
        | .error e => .error e
        | .ok kv2 => KvStore.applySegment fuel kv2 rest (idx + 1)

/-- The `for path in self.ntp.segments` loop of `KvStore.decode`. -/
def KvStore.decodeSegs (kv : KvMap) : List (List Nat) → Except PyErr KvMap
  | [] => .ok kv
  | f :: fs =>
    match KvStore.applySegment (f.length + 1) kv f 0 with
    | .error e => .error e
    | .ok kv2 => KvStore.decodeSegs kv2 fs

/-- Embeds `KvStore.decode`: bootstrap from the snapshot file (decoding and
applying every record of the embedded batch), then replay every segment
file in order. -/
def KvStore.decode (snapFile : Option (List Nat))
    (segFiles : List (List Nat)) : Except PyErr KvMap :=
  match KvSnapshot.ofFile snapFile with
  | .error e => .error e
  | .ok (_, sb) =>
    match KvStore.applyAll emptyKv sb.header sb.records with
    | .error e => .error e
    | .ok kv => KvStore.decodeSegs kv segFiles

/-! ## `kvstore.py`: semantic key/value decoding -/

/-- One hex digit, lowercase (as Python's `bytes.hex()`). -/
def hexDigit (n : Nat) : Char :=
  if n < 10 then Char.ofNat (48 + n) else Char.ofNat (87 + n)

/-- Two lowercase hex digits of one byte. -/
def hexByte (b : Nat) : String :=
  String.mk [hexDigit (b / 16 % 16), hexDigit (b % 16)]

/-- Python `bytes.hex()`: lowercase hex rendering of a byte string. -/
def hexBytes (bs : List Nat) : String :=
  String.join (bs.map hexByte)

/-- Embeds `decode_raft_meta_key`. -/
def decode_raft_meta_key (type : Int) : String :=
  if type = 0 then "voted for"
  else if type = 1 then "configuration map"
  else if type = 2 then "last known config offset"
  else if type = 3 then "last applied offset"
  else if type = 4 then "local id"
  else if type = 5 then "next cfg idx"
  else "unknown"

/-- Embeds `decode_raft_metadata_type`. -/
def decode_raft_metadata_type (k : Int) : String :=
  if k = 0 then "voted_for"
  else if k = 1 then "config_map"
  else if k = 2 then "config_latest_known_offset"
  else if k = 3 then "last_applied_offset"
  else if k = 4 then "unique_local_id"
  else if k = 5 then "config_next_cfg_idx"
  else "unknown"

/-- Embeds `decode_storage_key_name`. -/
def decode_storage_key_name (key_type : Int) : String :=
  if key_type = 0 then "start offset" else "unknown"

/-- The structured `data` of a decoded key: consensus keys carry a type tag
and a raft group, storage keys a type tag and an NTP blob, anything else the
raw key bytes rendered as hex. -/
inductive KeyData
  | raft (type : Int) (name : String) (group : Int)
  | storage (type : Int) (name : String) (ntp : List Nat)
  | raw (hex : String)
deriving DecidableEq

/-- The result of `decode_key`: `{'keyspace': ks, 'data': data}`. -/
structure DecodedKey where
  keyspace : String
  data : KeyData
deriving DecidableEq

/-- Modelled from the spec: `read_ntp` lives in the collaborator module
`model.py`, which is not present under `src/`; the spec only states that a
storage key continues with an NTP (namespace/topic/partition) triple of an
externally owned format.  It is modelled as consuming the remaining bytes
as one opaque blob. -/
def read_ntp (r : Reader) : Except PyErr (List Nat × Reader) :=
  .ok (r.data, ⟨[]⟩)

/-- Embeds `decode_raft_key`: `type (i8)` then `group (i64)`. -/
def decode_raft_key (k : List Nat) : Except PyErr KeyData := do
  let (type, r) ← Reader.read_int8 ⟨k⟩
  let (group, _) ← r.read_int64
  .ok (.raft type (decode_raft_meta_key type) group)

/-- Embeds `decode_storage_key`: `type (i8)` then an NTP blob. -/
def decode_storage_key (k : List Nat) : Except PyErr KeyData := do
  let (type, r) ← Reader.read_int8 ⟨k⟩
  let (ntp, _) ← read_ntp r
  .ok (.storage type (decode_storage_key_name type) ntp)

/-- Embeds `decode_key`: dispatch on the keyspace string; every keyspace other than
`"consensus"` and `"storage"` renders the raw key bytes as hex. -/
def decode_key (ks : String) (key : List Nat) : Except PyErr DecodedKey :=
  if ks = "consensus" then
    match decode_raft_key key with
    | .error e => .error e
    | .ok d => .ok ⟨ks, d⟩
  else if ks = "storage" then
    match decode_storage_key key with
    | .error e => .error e
    | .ok d => .ok ⟨ks, d⟩
  else .ok ⟨ks, .raw (hexBytes key)⟩

/-- Embeds `read_vnode`: an `i32` id then an `i64` revision. -/
def read_vnode (r : Reader) : Except PyErr ((Int × Int) × Reader) := do
  let (id, r) ← r.read_int32
  let (revision, r) ← r.read_int64
  .ok ((id, revision), r)

/-- Modelled from the spec: `read_raft_config` lives in the collaborator
module `model.py`, which is not present under `src/`; the spec treats the
raft configuration blob as an opaque structured value.  It is modelled as
consuming no bytes and returning an opaque placeholder. -/
def read_raft_config (r : Reader) : Except PyErr (Unit × Reader) :=
  .ok ((), r)

/-- The entry loop of `read_confiugrations_map` (sic). -/
def readCfgEntries : Nat → Reader → Except PyErr (List (Int × Unit) × Reader)
  | 0, r => .ok ([], r)
  | n + 1, r => do
    let (offset, r) ← r.read_int64
    let (cfg, r) ← read_raft_config r
    let (rest, r) ← readCfgEntries n r
    .ok ((offset, cfg) :: rest, r)

/-- Embeds `read_confiugrations_map`: `u64` count then that many
`(offset, raft_config)` pairs. -/
def read_confiugrations_map (r : Reader) :
    Except PyErr (List (Int × Unit) × Reader) := do
  let (sz, r) ← r.read_uint64
  readCfgEntries sz r

/-- The possible results of `decode_value` and its two helpers. -/
inductive KvValue
  | intV (i : Int)
  | votedFor (id revision term : Int)
  | cfgMap (m : List (Int × Unit))
  | nullV
  | emptyDict
  | rawHex (s : String)
deriving DecidableEq

/-- Embeds `decode_raft_value`: recognized consensus types 0..5; every other type
tag returns Python `None`. -/
def decode_raft_value (type : Int) (v : List Nat) : Except PyErr KvValue :=
  let r : Reader := ⟨v⟩
  if type = 0 then
    match read_vnode r with
    | .error e => .error e
    | .ok ((id, revision), r') =>
      match r'.read_int64 with
      | .error e => .error e
      | .ok (term, _) => .ok (.votedFor id revision term)
  else if type = 1 then
    match read_confiugrations_map r with
    | .error e => .error e
    | .ok (m, _) => .ok (.cfgMap m)
  else if type = 2 then
    match r.read_int64 with
    | .error e => .error e
    | .ok (i, _) => .ok (.intV i)
  else if type = 3 then
    match r.read_int64 with
    | .error e => .error e
    | .ok (i, _) => .ok (.intV i)
  else if type = 4 then .ok .nullV
  else if type = 5 then
    match r.read_int64 with
    | .error e => .error e
    | .ok (i, _) => .ok (.intV i)
  else .ok .nullV

/-- Embeds `decode_storage_value`: only type 0 (start offset) is recognized; every
other type tag returns the empty dict `{}`. -/
def decode_storage_value (type : Int) (v : List Nat) : Except PyErr KvValue :=
  if type = 0 then
    match Reader.read_int64 ⟨v⟩ with
    | .error e => .error e
    | .ok (i, _) => .ok (.intV i)
  else .ok .emptyDict

/-- Embeds `decode_value`: dispatch on the decoded key's keyspace; consensus and
storage keys dispatch further on their type tag, everything else renders
the raw value bytes as hex.  Indexing a non-dict `data` with `['type']`
would be a Python `TypeError`. -/
def decode_value (dk : DecodedKey) (v : List Nat) : Except PyErr KvValue :=
  if dk.keyspace = "consensus" then
    match dk.data with
    | .raft type _ _ => decode_raft_value type v
    | _ => .error .typeErr
  else if dk.keyspace = "storage" then
    match dk.data with
    | .storage type _ _ => decode_storage_value type v
    | _ => .error .typeErr
  else .ok (.rawHex (hexBytes v))

/-! ## Validation predicates and single-bit corruption of headers -/

/-- The `header_crc` invariant checked by `Batch.__init__`: the stored value
equals CRC32C of fields 2..13 packed little-endian. -/
abbrev headerCrcOk (h : Header) : Prop :=
  h.header_crc = (crc32c (packNoCrc h) 0 : Int)

/-- The `crc` invariant checked by `Batch.__init__`: the stored value equals
CRC32C of fields 6..13 re-packed big-endian, continued over the raw record
bytes. -/
abbrev batchCrcOk (h : Header) (records : List Nat) : Prop :=
  h.crc = (crc32c records (crc32c (crc_header_be_bytes h) 0) : Int)

/-- Bit widths of the 12 header fields other than `header_crc`, in the
order of `packNoCrc`. -/
def fieldBits : Nat → Nat
  | 0 => 32
  | 1 => 64
  | 2 => 8
  | 3 => 32
  | 4 => 16
  | 5 => 32
  | 6 => 64
  | 7 => 64
  | 8 => 64
  | 9 => 16
  | 10 => 32
  | 11 => 32
  | _ => 0

/-- Flip bit `j` of the two's-complement pattern of a signed field value. -/
def flipInt (bits : Nat) (v : Int) (j : Nat) : Int :=
  toSigned bits (toTwos bits v ^^^ 2 ^ j)

/-- Flip bit `j` of header field `i` (0-based among the 12 fields other
than `header_crc`, in `packNoCrc` order).  The `crc` field (index 3) is
unpacked unsigned, so its flipped value stays unsigned. -/
def Header.flipField (h : Header) (i j : Nat) : Header :=
  match i with
  | 0 => { h with batch_size := flipInt 32 h.batch_size j }
  | 1 => { h with base_offset := flipInt 64 h.base_offset j }
  | 2 => { h with type := flipInt 8 h.type j }
  | 3 => { h with crc := ((toTwos 32 h.crc ^^^ 2 ^ j : Nat) : Int) }
  | 4 => { h with attrs := flipInt 16 h.attrs j }
  | 5 => { h with delta := flipInt 32 h.delta j }
  | 6 => { h with first_ts := flipInt 64 h.first_ts j }
  | 7 => { h with max_ts := flipInt 64 h.max_ts j }
  | 8 => { h with producer_id := flipInt 64 h.producer_id j }
  | 9 => { h with producer_epoch := flipInt 16 h.producer_epoch j }
  | 10 => { h with base_seq := flipInt 32 h.base_seq j }
  | 11 => { h with record_count := flipInt 32 h.record_count j }
  | _ => h

/-! ## Entry extraction (the decode half of `KvStore.decode`, without the
store mutation; used to state replay-order properties) -/

/-- Decode every record of one batch with `KvStoreRecordDecoder`. -/
def decodeAllRecords (header : Header) : List Record → Except PyErr (List KvEntry)
  | [] => .ok []
  | r :: rest =>
    match KvStoreRecordDecoder.decode header r with
    | .error e => .error e
    | .ok e =>
      match decodeAllRecords header rest with
      | .error e => .error e
      | .ok es => .ok (e :: es)

/-- The entries decoded from one segment's byte stream, in replay order. -/
def segEntriesFuel : Nat → List Nat → Int → Except PyErr (List KvEntry)
  | 0, _, _ => .ok []
  | fuel + 1, s, idx =>
    match Batch.from_stream s idx with
    | .error e => .error e
    | .ok none => .ok []
    | .ok (some (b, rest)) =>
      match batchRecords b with
      | .error e => .error e
      | .ok rs =>
        match decodeAllRecords b.header rs with
        | .error e => .error e
        | .ok es =>
          match segEntriesFuel fuel rest (idx + 1) with
          | .error e => .error e
          | .ok es2 => .ok (es ++ es2)

/-- The entries decoded from one segment file. -/
def segEntries (f : List Nat) : Except PyErr (List KvEntry) :=
  segEntriesFuel (f.length + 1) f 0

/-- The entries decoded from all segment files, in replay order. -/
def segsEntries : List (List Nat) → Except PyErr (List KvEntry)
  | [] => .ok []
  | f :: fs =>
    match segEntries f with
    | .error e => .error e
    | .ok es =>
      match segsEntries fs with
      | .error e => .error e
      | .ok es2 => .ok (es ++ es2)

/-- The entries decoded from the snapshot's embedded batch (bootstrap). -/
def snapEntries (file : Option (List Nat)) : Except PyErr (List KvEntry) :=
  match KvSnapshot.ofFile file with
  | .error e => .error e
  | .ok (_, sb) => decodeAllRecords sb.header sb.records

/-! ## Concrete fixtures (witness inputs) -/

/-- One encoded record: length 0, attrs 0, deltas 0, key `[1, 0xAA]`
(keyspace 1 = consensus, key byte `0xAA`), value an optional iobuf holding
`[0x42]`, no headers. -/
def wSegRecBytes : List Nat := [0, 0, 0, 0, 4, 1, 0xAA, 12, 1, 1, 0, 0, 0, 0x42, 0]

/-- Segment batch header before CRC fields are filled in. -/
def wSegHdr0 : Header :=
  { header_crc := 0, batch_size := 76, base_offset := 20, type := 4, crc := 0,
    attrs := 0, delta := 0, first_ts := 0, max_ts := 0, producer_id := 0,
    producer_epoch := 0, base_seq := 0, record_count := 1 }

/-- Segment batch header with the correct `crc` field. -/
def wSegHdr1 : Header :=
  { wSegHdr0 with
    crc := (crc32c wSegRecBytes (crc32c (crc_header_be_bytes wSegHdr0) 0) : Int) }

/-- Segment batch header with both CRC fields correct. -/
def wSegHdr : Header :=
  { wSegHdr1 with header_crc := (crc32c (packNoCrc wSegHdr1) 0 : Int) }

/-- A complete one-batch segment file. -/
def wSegBytes : List Nat := packFullHeader wSegHdr ++ wSegRecBytes

/-- Like `wSegHdr0` but with batch type 5 (not the kvstore batch type). -/
def wSeg5Hdr0 : Header := { wSegHdr0 with type := 5 }

def wSeg5Hdr1 : Header :=
  { wSeg5Hdr0 with
    crc := (crc32c wSegRecBytes (crc32c (crc_header_be_bytes wSeg5Hdr0) 0) : Int) }

/-- A CRC-valid header of batch type 5. -/
def wSeg5Hdr : Header :=
  { wSeg5Hdr1 with header_crc := (crc32c (packNoCrc wSeg5Hdr1) 0 : Int) }

/-- A complete one-batch segment file whose batch has type 5. -/
def wSeg5Bytes : List Nat := packFullHeader wSeg5Hdr ++ wSegRecBytes

/-- A snapshot-embedded batch: type 4, base offset 10, one record with key
`[1, 0xAA]` and optional-iobuf value `[0x41]`. -/
def wSnapBatchBytes : List Nat :=
  leBytes 4 0 ++ leBytes 4 0 ++ leBytes 8 10 ++ [4] ++ leBytes 4 0 ++
  leBytes 2 0 ++ leBytes 4 0 ++ leBytes 8 0 ++ leBytes 8 0 ++ leBytes 8 0 ++
  leBytes 2 0 ++ leBytes 4 0 ++ leBytes 4 1 ++ leBytes 8 0 ++ [0] ++
  (leBytes 4 0 ++ [0] ++ leBytes 8 0 ++ leBytes 4 0 ++ leBytes 4 0 ++
   leBytes 4 2 ++ [1, 0xAA] ++ leBytes 4 0 ++ leBytes 4 6 ++
   ([1] ++ leBytes 4 1 ++ [0x41]) ++ leBytes 4 0)

/-- A complete snapshot file: 13-byte snapshot header with metadata size 8,
an `i64` last offset of 10, then the length-prefixed embedded batch. -/
def wSnapFileBytes : List Nat :=
  (leBytes 4 0 ++ leBytes 4 0 ++ [0] ++ leBytes 4 8) ++ leBytes 8 10 ++
  leBytes 4 wSnapBatchBytes.length ++ wSnapBatchBytes

/-- A snapshot-embedded batch with zero records. -/
def wSnapEmptyBatchBytes : List Nat :=
  leBytes 4 0 ++ leBytes 4 0 ++ leBytes 8 10 ++ [4] ++ leBytes 4 0 ++
  leBytes 2 0 ++ leBytes 4 0 ++ leBytes 8 0 ++ leBytes 8 0 ++ leBytes 8 0 ++
  leBytes 2 0 ++ leBytes 4 0 ++ leBytes 4 0 ++ leBytes 8 0 ++ [0]

/-- A complete snapshot file whose embedded batch has zero records. -/
def wSnapEmptyFileBytes : List Nat :=
  (leBytes 4 0 ++ leBytes 4 0 ++ [0] ++ leBytes 4 8) ++ leBytes 8 10 ++
  leBytes 4 wSnapEmptyBatchBytes.length ++ wSnapEmptyBatchBytes

/-- The snapshot entry decoded from `wSnapFileBytes`. -/
def wSnapEntry : KvEntry := ⟨0, 10, "consensus", [0xAA], some [0x41]⟩

/-- The segment entry decoded from `wSegBytes`. -/
def wSegEntry : KvEntry := ⟨0, 20, "consensus", [0xAA], some [0x42]⟩

/-- A header whose only nonzero field is `batch_size = 100` (declares 39
record bytes); its 61-byte encoding followed by nothing is a stream
truncated inside the record region. -/
def wHdr100 : Header :=
  { header_crc := 0, batch_size := 100, base_offset := 0, type := 0, crc := 0,
    attrs := 0, delta := 0, first_ts := 0, max_ts := 0, producer_id := 0,
    producer_epoch := 0, base_seq := 0, record_count := 0 }

/-- A 61-byte stream: a complete non-zero header and no record bytes. -/
def wTruncStream : List Nat := packFullHeader wHdr100

theorem leBytes_length (w n : Nat) : (leBytes w n).length = w := by
  induction w generalizing n with
  | zero => rfl
  | succ w ih => simp [leBytes, ih]

theorem fromLE_leBytes (w n : Nat) (h : n < 2 ^ (8 * w)) :
    fromLE (leBytes w n) = n := by
  induction w generalizing n with
  | zero =>
    simp only [Nat.mul_zero, pow_zero, Nat.lt_one_iff] at h
    simp [leBytes, fromLE, h]
  | succ w ih =>
    have hdiv : n / 256 < 2 ^ (8 * w) := by
      rw [Nat.div_lt_iff_lt_mul (by norm_num)]
      calc n < 2 ^ (8 * (w + 1)) := h
        _ = 2 ^ (8 * w) * 256 := by rw [Nat.mul_succ, pow_add]; norm_num
    simp [leBytes, fromLE, ih _ hdiv, Nat.mod_add_div]

theorem toTwos_toSigned (bits n : Nat) (h : n < 2 ^ bits) :
    toTwos bits (toSigned bits n) = n := by
  unfold toTwos toSigned
  have h2 : ((2 : Int) ^ bits) = ((2 ^ bits : Nat) : Int) := by push_cast; ring
  have hn : (n : Int) < (2 : Int) ^ bits := by rw [h2]; exact_mod_cast h
  split
  · rw [Int.emod_eq_of_lt (Int.natCast_nonneg n) hn]
    simp
  · rw [show (n : Int) - 2 ^ bits = (n : Int) + 2 ^ bits * (-1) by ring,
      Int.add_mul_emod_self_left,
      Int.emod_eq_of_lt (Int.natCast_nonneg n) hn]
    simp

theorem flipAt_length (bs : List Nat) (k j : Nat) :
    (flipAt bs k j).length = bs.length := by
  induction bs generalizing k with
  | nil => rfl
  | cons b bs ih => cases k <;> simp [flipAt, ih]

theorem flipAt_append_left (a b : List Nat) (k j : Nat) (h : k < a.length) :
    flipAt (a ++ b) k j = flipAt a k j ++ b := by
  induction a generalizing k with
  | nil => simp at h
  | cons x xs ih =>
    cases k with
    | zero => simp [flipAt]
    | succ k =>
      have h' : k < xs.length := by simpa using h
      show x :: flipAt (xs ++ b) k j = x :: (flipAt xs k j ++ b)
      rw [ih k h']

theorem flipAt_append_right (a b : List Nat) (k j : Nat) :
    flipAt (a ++ b) (a.length + k) j = a ++ flipAt b k j := by
  induction a with
  | nil => simp [flipAt]
  | cons x xs ih =>
    simp only [List.cons_append, List.length_cons]
    have hh : xs.length + 1 + k = (xs.length + k) + 1 := by omega
    rw [hh]
    simp [flipAt, ih]

theorem xor_shiftRight (a b k : Nat) : (a ^^^ b) >>> k = a >>> k ^^^ b >>> k := by
  apply Nat.eq_of_testBit_eq
  intro i
  simp [Nat.testBit_shiftRight, Nat.testBit_xor]

theorem xor_mod_two_pow (a b k : Nat) :
    (a ^^^ b) % 2 ^ k = a % 2 ^ k ^^^ b % 2 ^ k := by
  apply Nat.eq_of_testBit_eq
  intro i
  simp only [Nat.testBit_mod_two_pow, Nat.testBit_xor]
  by_cases h : i < k <;> simp [h]

theorem mod256_xor_low (n j : Nat) (hj : j < 8) :
    (n ^^^ 2 ^ j) % 256 = n % 256 ^^^ 2 ^ j := by
  have h256 : (256 : Nat) = 2 ^ 8 := by norm_num
  have hlt : 2 ^ j < 2 ^ 8 := Nat.pow_lt_pow_right (by norm_num) hj
  rw [h256, xor_mod_two_pow, Nat.mod_eq_of_lt hlt]

theorem div256_xor_low (n j : Nat) (hj : j < 8) :
    (n ^^^ 2 ^ j) / 256 = n / 256 := by
  have h256 : ∀ m : Nat, m / 256 = m >>> 8 := by
    intro m
    rw [Nat.shiftRight_eq_div_pow]
  rw [h256, h256, xor_shiftRight]
  have hz : (2 ^ j) >>> 8 = 0 := by
    rw [Nat.shiftRight_eq_div_pow]
    exact Nat.div_eq_of_lt (Nat.pow_lt_pow_right (by norm_num) hj)
  rw [hz, Nat.xor_zero]

theorem mod256_xor_high (n j : Nat) (hj : 8 ≤ j) :
    (n ^^^ 2 ^ j) % 256 = n % 256 := by
  have h256 : (256 : Nat) = 2 ^ 8 := by norm_num
  have hz : 2 ^ j % 2 ^ 8 = 0 :=
    Nat.dvd_iff_mod_eq_zero.mp (pow_dvd_pow 2 hj)
  rw [h256, xor_mod_two_pow, hz, Nat.xor_zero]

theorem div256_xor_high (n j : Nat) (hj : 8 ≤ j) :
    (n ^^^ 2 ^ j) / 256 = n / 256 ^^^ 2 ^ (j - 8) := by
  have h256 : ∀ m : Nat, m / 256 = m >>> 8 := by
    intro m
    rw [Nat.shiftRight_eq_div_pow]
  rw [h256, h256, xor_shiftRight]
  have hp : (2 ^ j) >>> 8 = 2 ^ (j - 8) := by
    rw [Nat.shiftRight_eq_div_pow]
    exact Nat.pow_div hj (by norm_num)
  rw [hp]

/-- Flipping one bit of a value flips one bit of its little-endian bytes. -/
theorem leBytes_flip (w n j : Nat) (h : j < 8 * w) :
    leBytes w (n ^^^ 2 ^ j) = flipAt (leBytes w n) (j / 8) (j % 8) := by
  induction w generalizing n j with
  | zero => omega
  | succ w ih =>
    by_cases hj : j < 8
    · have hdiv : j / 8 = 0 := Nat.div_eq_of_lt hj
      have hmod : j % 8 = j := Nat.mod_eq_of_lt hj
      simp [leBytes, flipAt, hdiv, hmod, mod256_xor_low n j hj,
        div256_xor_low n j hj]
    · push_neg at hj
      have hdiv : j / 8 = (j - 8) / 8 + 1 := by omega
      have hmod : j % 8 = (j - 8) % 8 := by omega
      rw [hdiv, hmod]
      simp [leBytes, flipAt, mod256_xor_high n j hj, div256_xor_high n j hj,
        ih (n / 256) (j - 8) (by omega)]

set_option maxRecDepth 100000 in
/-- Sanity check of the CRC-32C model against the standard test vector
(the checksum of the ASCII string "123456789"). -/
theorem crc32c_test_vector :
    crc32c [49, 50, 51, 52, 53, 54, 55, 56, 57] 0 = 0xE3069283 := by decide

theorem xor_left_comm (a b c : Nat) : a ^^^ (b ^^^ c) = b ^^^ (a ^^^ c) := by
  rw [← Nat.xor_assoc, Nat.xor_comm a b, Nat.xor_assoc]

theorem xor_xor_self (a b : Nat) : a ^^^ (a ^^^ b) = b := by
  rw [← Nat.xor_assoc, Nat.xor_self, Nat.zero_xor]

theorem crcStep_xor (a b : Nat) :
    crcStep (a ^^^ b) = crcStep a ^^^ crcStep b := by
  unfold crcStep
  rw [xor_shiftRight, Nat.testBit_xor]
  cases ha : a.testBit 0 <;> cases hb : b.testBit 0 <;>
    simp [Nat.xor_assoc, xor_left_comm, xor_xor_self, Nat.xor_self,
      Nat.xor_zero, Nat.zero_xor, Nat.xor_comm]

theorem crcSteps_xor (n a b : Nat) :
    crcSteps n (a ^^^ b) = crcSteps n a ^^^ crcSteps n b := by
  induction n generalizing a b with
  | zero => rfl
  | succ n ih =>
    show crcSteps n (crcStep (a ^^^ b)) = _
    rw [crcStep_xor]
    exact ih (crcStep a) (crcStep b)

theorem crcSteps_add (m n s : Nat) :
    crcSteps (m + n) s = crcSteps n (crcSteps m s) := by
  induction m generalizing s with
  | zero =>
    rw [Nat.zero_add]
    rfl
  | succ m ih =>
    have hh : m + 1 + n = (m + n) + 1 := by omega
    rw [hh]
    exact ih (crcStep s)

theorem crcByte_xor_left (s d b : Nat) :
    crcByte (s ^^^ d) b = crcByte s b ^^^ crcSteps 8 d := by
  unfold crcByte
  have hh : (s ^^^ d) ^^^ b = (s ^^^ b) ^^^ d := by
    rw [Nat.xor_assoc, Nat.xor_comm d b, ← Nat.xor_assoc]
  rw [hh, crcSteps_xor]

theorem crc32cRaw_xor_state (bs : List Nat) (s d : Nat) :
    crc32cRaw bs (s ^^^ d) = crc32cRaw bs s ^^^ crcSteps (8 * bs.length) d := by
  induction bs generalizing s d with
  | nil => simp [crc32cRaw, crcSteps]
  | cons b rest ih =>
    show crc32cRaw rest (crcByte (s ^^^ d) b) =
      crc32cRaw rest (crcByte s b) ^^^ crcSteps (8 * (rest.length + 1)) d
    rw [crcByte_xor_left, ih]
    congr 1

/-- The state difference introduced by flipping one bit of the input. -/
theorem crc32cRaw_flipAt (bs : List Nat) (k j s : Nat) (hk : k < bs.length) :
    crc32cRaw (flipAt bs k j) s =
      crc32cRaw bs s ^^^ crcSteps (8 * (bs.length - k)) (2 ^ j) := by
  induction bs generalizing k s with
  | nil => simp at hk
  | cons b rest ih =>
    cases k with
    | zero =>
      show crc32cRaw rest (crcByte s (b ^^^ 2 ^ j)) =
        crc32cRaw rest (crcByte s b) ^^^
          crcSteps (8 * (rest.length + 1 - 0)) (2 ^ j)
      have h1 : crcByte s (b ^^^ 2 ^ j) = crcByte s b ^^^ crcSteps 8 (2 ^ j) := by
        unfold crcByte
        rw [← Nat.xor_assoc, crcSteps_xor]
      rw [h1, crc32cRaw_xor_state]
      congr 1
    | succ k =>
      show crc32cRaw (flipAt rest k j) (crcByte s b) =
        crc32cRaw rest (crcByte s b) ^^^
          crcSteps (8 * (rest.length + 1 - (k + 1))) (2 ^ j)
      have hk' : k < rest.length := by simpa using hk
      have hh : rest.length + 1 - (k + 1) = rest.length - k := by omega
      rw [hh]
      exact ih k (crcByte s b) hk'

theorem crcStep_lt (s : Nat) (h : s < 2 ^ 32) : crcStep s < 2 ^ 32 := by
  unfold crcStep
  apply Nat.xor_lt_two_pow
  · have h1 : s >>> 1 = s / 2 := by
      rw [Nat.shiftRight_eq_div_pow]
    have h32 : (2 : Nat) ^ 32 = 4294967296 := by norm_num
    omega
  · split <;> norm_num [CRC32C_POLY]

theorem crcStep_eq_zero (s : Nat) (h : s < 2 ^ 32) (hz : crcStep s = 0) :
    s = 0 := by
  unfold crcStep at hz
  by_cases hb : s.testBit 0
  · rw [hb, if_pos rfl] at hz
    have heq : s >>> 1 = CRC32C_POLY := Nat.xor_eq_zero.mp hz
    have h1 : s >>> 1 = s / 2 := by
      rw [Nat.shiftRight_eq_div_pow]
    have h32 : (2 : Nat) ^ 32 = 4294967296 := by norm_num
    rw [h1] at heq
    norm_num [CRC32C_POLY] at heq
    omega
  · rw [Bool.not_eq_true] at hb
    rw [hb] at hz
    simp only [Bool.false_eq_true, if_false, Nat.xor_zero] at hz
    have h1 : s >>> 1 = s / 2 := by
      rw [Nat.shiftRight_eq_div_pow]
    rw [h1] at hz
    have hs : s = 0 ∨ s = 1 := by omega
    rcases hs with rfl | rfl
    · rfl
    · simp at hb

theorem crcSteps_lt (n s : Nat) (h : s < 2 ^ 32) : crcSteps n s < 2 ^ 32 := by
  induction n generalizing s with
  | zero => exact h
  | succ n ih => exact ih _ (crcStep_lt s h)

theorem crcSteps_ne_zero (n s : Nat) (h : s < 2 ^ 32) (hnz : s ≠ 0) :
    crcSteps n s ≠ 0 := by
  induction n generalizing s with
  | zero => exact hnz
  | succ n ih =>
    apply ih (crcStep s) (crcStep_lt s h)
    intro hz
    exact hnz (crcStep_eq_zero s h hz)

theorem xor_ne_of_ne_zero (s d : Nat) (hd : d ≠ 0) : s ^^^ d ≠ s := by
  intro h
  apply hd
  have h2 := congrArg (fun x => s ^^^ x) h
  simpa [← Nat.xor_assoc, Nat.xor_self, Nat.zero_xor] using h2

/-- Flipping any single bit `j < 8` of any byte of the input changes the
CRC-32C checksum, for every seed. -/
theorem crc32c_flipAt_ne (bs : List Nat) (k j v : Nat)
    (hk : k < bs.length) (hj : j < 8) :
    crc32c (flipAt bs k j) v ≠ crc32c bs v := by
  unfold crc32c
  intro h
  have hraw : crc32cRaw (flipAt bs k j) (v ^^^ 0xFFFFFFFF) =
      crc32cRaw bs (v ^^^ 0xFFFFFFFF) := by
    have h2 := congrArg (fun x => x ^^^ 0xFFFFFFFF) h
    simpa [Nat.xor_assoc] using h2
  rw [crc32cRaw_flipAt bs k j _ hk] at hraw
  have hne : crcSteps (8 * (bs.length - k)) (2 ^ j) ≠ 0 := by
    apply crcSteps_ne_zero
    · calc (2 : Nat) ^ j < 2 ^ 8 := Nat.pow_lt_pow_right (by norm_num) hj
        _ < 2 ^ 32 := by norm_num
    · exact (Nat.two_pow_pos j).ne'
  exact xor_ne_of_ne_zero _ _ hne hraw

/-- Sanity checks of the zigzag LEB128 varint model. -/
theorem read_varint_examples :
    Reader.read_varint ⟨[1]⟩ = .ok (-1, ⟨[]⟩) ∧
    Reader.read_varint ⟨[4]⟩ = .ok (2, ⟨[]⟩) ∧
    Reader.read_varint ⟨[128, 1]⟩ = .ok (64, ⟨[]⟩) := by decide

/-! ## Supporting lemmas about packing and flipping -/

theorem toTwos_lt (bits : Nat) (v : Int) : toTwos bits v < 2 ^ bits := by
  unfold toTwos
  have h1 : (0 : Int) < 2 ^ bits := by positivity
  have h2 := Int.emod_lt_of_pos v h1
  have h3 := Int.emod_nonneg v (by positivity : ((2 : Int) ^ bits) ≠ 0)
  have hc : ((2 ^ bits : Nat) : Int) = (2 : Int) ^ bits := by push_cast; ring
  omega

theorem toTwos_natCast (bits x : Nat) (h : x < 2 ^ bits) :
    toTwos bits (x : Int) = x := by
  unfold toTwos
  have hc : ((2 ^ bits : Nat) : Int) = (2 : Int) ^ bits := by push_cast; ring
  rw [Int.emod_eq_of_lt (Int.natCast_nonneg x) (by omega)]
  simp

theorem toTwos_flipInt (bits : Nat) (v : Int) (j : Nat) (hj : j < bits) :
    toTwos bits (flipInt bits v j) = toTwos bits v ^^^ 2 ^ j := by
  unfold flipInt
  exact toTwos_toSigned bits _
    (Nat.xor_lt_two_pow (toTwos_lt bits v)
      (Nat.pow_lt_pow_right (by norm_num) hj))

theorem packNoCrc_length (h : Header) : (packNoCrc h).length = 57 := by
  simp [packNoCrc, leBytes_length]

theorem flipAt_leBytes_cons (w n : Nat) (tail : List Nat) (k j : Nat) :
    flipAt (leBytes w n ++ tail) (w + k) j = leBytes w n ++ flipAt tail k j := by
  have hh := flipAt_append_right (leBytes w n) tail k j
  rwa [leBytes_length] at hh

theorem flipAt_leBytes_head (w n : Nat) (tail : List Nat) (j : Nat)
    (hj : j < 8 * w) :
    flipAt (leBytes w n ++ tail) (j / 8) (j % 8) =
      leBytes w (n ^^^ 2 ^ j) ++ tail := by
  rw [flipAt_append_left _ _ _ _ (by rw [leBytes_length]; omega),
    ← leBytes_flip w n j hj]

/-- Flipping one bit of any header field other than `header_crc` leaves
`header_crc` unchanged and flips exactly one bit of the packed fields
2..13. -/
theorem packNoCrc_flipField (h : Header) (i j : Nat) (hi : i < 12)
    (hj : j < fieldBits i) :
    (Header.flipField h i j).header_crc = h.header_crc ∧
    ∃ k, k < 57 ∧
      packNoCrc (Header.flipField h i j) = flipAt (packNoCrc h) k (j % 8) := by
  interval_cases i
  · have hj' : j < 32 := hj
    refine ⟨rfl, 0 + j / 8, by omega, ?_⟩
    simp only [packNoCrc, Header.flipField, List.append_assoc]
    have hz : 0 + j / 8 = j / 8 := by omega
    rw [hz,
      toTwos_flipInt 32 _ j (by omega),
      flipAt_leBytes_head 4 _ _ j (by omega)]
  · have hj' : j < 64 := hj
    refine ⟨rfl, 4 + j / 8, by omega, ?_⟩
    simp only [packNoCrc, Header.flipField, List.append_assoc]
    rw [toTwos_flipInt 64 _ j (by omega),
      flipAt_leBytes_cons,
      flipAt_leBytes_head 8 _ _ j (by omega)]
  · have hj' : j < 8 := hj
    refine ⟨rfl, 12 + j / 8, by omega, ?_⟩
    have hidx : 12 + j / 8 = 4 + (8 + (j / 8)) := by omega
    simp only [packNoCrc, Header.flipField, List.append_assoc]
    rw [hidx,
      toTwos_flipInt 8 _ j (by omega),
      flipAt_leBytes_cons,
      flipAt_leBytes_cons,
      flipAt_leBytes_head 1 _ _ j (by omega)]
  · have hj' : j < 32 := hj
    refine ⟨rfl, 13 + j / 8, by omega, ?_⟩
    have hidx : 13 + j / 8 = 4 + (8 + (1 + (j / 8))) := by omega
    simp only [packNoCrc, Header.flipField, List.append_assoc]
    rw [hidx,
      toTwos_natCast 32 _
      (Nat.xor_lt_two_pow (toTwos_lt 32 h.crc)
        (Nat.pow_lt_pow_right (by norm_num) (by omega))),
      flipAt_leBytes_cons,
      flipAt_leBytes_cons,
      flipAt_leBytes_cons,
      flipAt_leBytes_head 4 _ _ j (by omega)]
  · have hj' : j < 16 := hj
    refine ⟨rfl, 17 + j / 8, by omega, ?_⟩
    have hidx : 17 + j / 8 = 4 + (8 + (1 + (4 + (j / 8)))) := by omega
    simp only [packNoCrc, Header.flipField, List.append_assoc]
    rw [hidx,
      toTwos_flipInt 16 _ j (by omega),
      flipAt_leBytes_cons,
      flipAt_leBytes_cons,
      flipAt_leBytes_cons,
      flipAt_leBytes_cons,
      flipAt_leBytes_head 2 _ _ j (by omega)]
  · have hj' : j < 32 := hj
    refine ⟨rfl, 19 + j / 8, by omega, ?_⟩
    have hidx : 19 + j / 8 = 4 + (8 + (1 + (4 + (2 + (j / 8))))) := by omega
    simp only [packNoCrc, Header.flipField, List.append_assoc]
    rw [hidx,
      toTwos_flipInt 32 _ j (by omega),
      flipAt_leBytes_cons,
      flipAt_leBytes_cons,
      flipAt_leBytes_cons,
      flipAt_leBytes_cons,
      flipAt_leBytes_cons,
      flipAt_leBytes_head 4 _ _ j (by omega)]
  · have hj' : j < 64 := hj
    refine ⟨rfl, 23 + j / 8, by omega, ?_⟩
    have hidx : 23 + j / 8 = 4 + (8 + (1 + (4 + (2 + (4 + (j / 8)))))) := by omega
    simp only [packNoCrc, Header.flipField, List.append_assoc]
    rw [hidx,
      toTwos_flipInt 64 _ j (by omega),
      flipAt_leBytes_cons,
      flipAt_leBytes_cons,
      flipAt_leBytes_cons,
      flipAt_leBytes_cons,
      flipAt_leBytes_cons,
      flipAt_leBytes_cons,
      flipAt_leBytes_head 8 _ _ j (by omega)]
  · have hj' : j < 64 := hj
    refine ⟨rfl, 31 + j / 8, by omega, ?_⟩
    have hidx : 31 + j / 8 = 4 + (8 + (1 + (4 + (2 + (4 + (8 + (j / 8))))))) := by omega
    simp only [packNoCrc, Header.flipField, List.append_assoc]
    rw [hidx,
      toTwos_flipInt 64 _ j (by omega),
      flipAt_leBytes_cons,
      flipAt_leBytes_cons,
      flipAt_leBytes_cons,
      flipAt_leBytes_cons,
      flipAt_leBytes_cons,
      flipAt_leBytes_cons,
      flipAt_leBytes_cons,
      flipAt_leBytes_head 8 _ _ j (by omega)]
  · have hj' : j < 64 := hj
    refine ⟨rfl, 39 + j / 8, by omega, ?_⟩
    have hidx : 39 + j / 8 = 4 + (8 + (1 + (4 + (2 + (4 + (8 + (8 + (j / 8)))))))) := by omega
    simp only [packNoCrc, Header.flipField, List.append_assoc]
    rw [hidx,
      toTwos_flipInt 64 _ j (by omega),
      flipAt_leBytes_cons,
      flipAt_leBytes_cons,
      flipAt_leBytes_cons,
      flipAt_leBytes_cons,
      flipAt_leBytes_cons,
      flipAt_leBytes_cons,
      flipAt_leBytes_cons,
      flipAt_leBytes_cons,
      flipAt_leBytes_head 8 _ _ j (by omega)]
  · have hj' : j < 16 := hj
    refine ⟨rfl, 47 + j / 8, by omega, ?_⟩
    have hidx : 47 + j / 8 = 4 + (8 + (1 + (4 + (2 + (4 + (8 + (8 + (8 + (j / 8))))))))) := by omega
    simp only [packNoCrc, Header.flipField, List.append_assoc]
    rw [hidx,
      toTwos_flipInt 16 _ j (by omega),
      flipAt_leBytes_cons,
      flipAt_leBytes_cons,
      flipAt_leBytes_cons,
      flipAt_leBytes_cons,
      flipAt_leBytes_cons,
      flipAt_leBytes_cons,
      flipAt_leBytes_cons,
      flipAt_leBytes_cons,
      flipAt_leBytes_cons,
      flipAt_leBytes_head 2 _ _ j (by omega)]
  · have hj' : j < 32 := hj
    refine ⟨rfl, 49 + j / 8, by omega, ?_⟩
    have hidx : 49 + j / 8 = 4 + (8 + (1 + (4 + (2 + (4 + (8 + (8 + (8 + (2 + (j / 8)))))))))) := by omega
    simp only [packNoCrc, Header.flipField, List.append_assoc]
    rw [hidx,
      toTwos_flipInt 32 _ j (by omega),
      flipAt_leBytes_cons,
      flipAt_leBytes_cons,
      flipAt_leBytes_cons,
      flipAt_leBytes_cons,
      flipAt_leBytes_cons,
      flipAt_leBytes_cons,
      flipAt_leBytes_cons,
      flipAt_leBytes_cons,
      flipAt_leBytes_cons,
      flipAt_leBytes_cons,
      flipAt_leBytes_head 4 _ _ j (by omega)]
  · have hj' : j < 32 := hj
    refine ⟨rfl, 53 + j / 8, by omega, ?_⟩
    have hidx : 53 + j / 8 = 4 + (8 + (1 + (4 + (2 + (4 + (8 + (8 + (8 + (2 + (4 + (j / 8))))))))))) := by omega
    simp only [packNoCrc, Header.flipField, List.append_assoc]
    rw [hidx,
      toTwos_flipInt 32 _ j (by omega),
      flipAt_leBytes_cons,
      flipAt_leBytes_cons,
      flipAt_leBytes_cons,
      flipAt_leBytes_cons,
      flipAt_leBytes_cons,
      flipAt_leBytes_cons,
      flipAt_leBytes_cons,
      flipAt_leBytes_cons,
      flipAt_leBytes_cons,
      flipAt_leBytes_cons,
      flipAt_leBytes_cons,
      ← leBytes_flip 4 _ j (by omega)]

theorem Batch.init_ok_iff (idx : Int) (h : Header) (r : List Nat) :
    Batch.init idx h r = .ok ⟨idx, h, r⟩ ↔ (headerCrcOk h ∧ batchCrcOk h r) := by
  unfold Batch.init
  constructor
  · intro hok
    by_cases h1 : headerCrcOk h
    · by_cases h2 : batchCrcOk h r
      · exact ⟨h1, h2⟩
      · rw [if_pos h1, if_neg h2] at hok
        exact absurd hok (by simp)
    · rw [if_neg h1] at hok
      exact absurd hok (by simp)
  · intro ⟨h1, h2⟩
    rw [if_pos h1, if_pos h2]

theorem Batch.init_err (idx : Int) (h : Header) (r : List Nat)
    (hne : ¬ (headerCrcOk h ∧ batchCrcOk h r)) :
    Batch.init idx h r = .error .corruptBatch := by
  unfold Batch.init
  by_cases h1 : headerCrcOk h
  · by_cases h2 : batchCrcOk h r
    · exact absurd ⟨h1, h2⟩ hne
    · rw [if_pos h1, if_neg h2]
  · rw [if_neg h1]

/-- Claim C2: for every decoded batch, the stored `header_crc` must equal
the CRC32C of header fields 2..13 packed little-endian, and the stored `crc`
must equal the CRC32C of header fields 6..13 re-packed big-endian continued
over the raw record-region bytes; any mismatch of either — including any
single bit flipped in the record region or in any header field other than
`header_crc` — raises `CorruptBatchError`, and a batch with both CRCs valid
raises nothing. -/
theorem C2_crc_enforcement :
    (∀ (idx : Int) (h : Header) (r : List Nat),
        Batch.init idx h r = .ok ⟨idx, h, r⟩ ↔ (headerCrcOk h ∧ batchCrcOk h r)) ∧
    (∀ (idx : Int) (h : Header) (r : List Nat),
        ¬ (headerCrcOk h ∧ batchCrcOk h r) →
        Batch.init idx h r = .error .corruptBatch) ∧
    (∀ (idx : Int) (h : Header) (r : List Nat) (k j : Nat),
        k < r.length → j < 8 → batchCrcOk h r →
        Batch.init idx h (flipAt r k j) = .error .corruptBatch) ∧
    (∀ (idx : Int) (h : Header) (r : List Nat) (i j : Nat),
        i < 12 → j < fieldBits i → headerCrcOk h →
        Batch.init idx (Header.flipField h i j) r = .error .corruptBatch) := by
  refine ⟨Batch.init_ok_iff, Batch.init_err, ?_, ?_⟩
  · intro idx h r k j hk hj hcrc
    apply Batch.init_err
    rintro ⟨-, h2⟩
    have heq : (crc32c (flipAt r k j) (crc32c (crc_header_be_bytes h) 0) : Int) =
        (crc32c r (crc32c (crc_header_be_bytes h) 0) : Int) := by
      rw [← h2, ← hcrc]
    exact crc32c_flipAt_ne r k j (crc32c (crc_header_be_bytes h) 0) hk hj
      (by exact_mod_cast heq)
  · intro idx h r i j hi hj hcrc
    obtain ⟨hkeep, k, hk, hpack⟩ := packNoCrc_flipField h i j hi hj
    apply Batch.init_err
    rintro ⟨h1, -⟩
    have h1' : (Header.flipField h i j).header_crc =
        (crc32c (packNoCrc (Header.flipField h i j)) 0 : Int) := h1
    rw [hkeep, hpack] at h1'
    have heq : (crc32c (flipAt (packNoCrc h) k (j % 8)) 0 : Int) =
        (crc32c (packNoCrc h) 0 : Int) := by
      rw [← h1', hcrc]
    exact crc32c_flipAt_ne (packNoCrc h) k (j % 8) 0
      (by rw [packNoCrc_length]; exact hk) (Nat.mod_lt _ (by norm_num))
      (by exact_mod_cast heq)

set_option maxRecDepth 1000000 in
/-- Witness for C2 at a concrete CRC-valid batch: validation accepts it,
and a corrupted `header_crc`, a record-region bit flip, and a header-field
bit flip each raise `CorruptBatchError`. -/
theorem C2_crc_enforcement_witness :
    Batch.init 0 wSegHdr wSegRecBytes = .ok ⟨0, wSegHdr, wSegRecBytes⟩ ∧
    Batch.init 0 { wSegHdr with header_crc := wSegHdr.header_crc + 1 }
      wSegRecBytes = .error .corruptBatch ∧
    Batch.init 0 wSegHdr (flipAt wSegRecBytes 0 0) = .error .corruptBatch ∧
    Batch.init 0 (Header.flipField wSegHdr 0 0) wSegRecBytes =
      .error .corruptBatch :=
  ⟨(C2_crc_enforcement.1 0 wSegHdr wSegRecBytes).mpr ⟨by decide, by decide⟩,
   C2_crc_enforcement.2.1 0 _ _ (by decide),
   C2_crc_enforcement.2.2.1 0 wSegHdr wSegRecBytes 0 0 (by decide) (by decide)
     (by decide),
   C2_crc_enforcement.2.2.2 0 wSegHdr wSegRecBytes 0 0 (by decide) (by decide)
     (by decide)⟩

/-- Counterexample to claim C1 as stated: a stream of one byte has fewer
than `HEADER_SIZE` bytes remaining, and a 61-byte stream whose non-zero
header declares 39 record bytes has fewer than `batch_size - HEADER_SIZE`
bytes remaining for the record region; in both cases `Batch.from_stream`
raises an `AssertionError` instead of signalling clean EndOfStream. -/
theorem C1_counterexample :
    (([(0 : Nat)].length < HEADER_SIZE) ∧
      Batch.from_stream [0] 0 = .error .assertFail ∧
      Batch.from_stream [0] 0 ≠ .ok none) ∧
    (wTruncStream.length = HEADER_SIZE ∧
      wHdr100.batch_size - (HEADER_SIZE : Int) = 39 ∧
      (wTruncStream.drop HEADER_SIZE).length = 0 ∧
      Batch.from_stream wTruncStream 0 = .error .assertFail ∧
      Batch.from_stream wTruncStream 0 ≠ .ok none) := by decide

/-- Claim C1, amended: `Batch.from_stream` signals clean EndOfStream only
when exactly zero bytes remain at a header boundary or when the header
fields are all zero; a stream exhausted strictly inside the header
(`0 < remaining < HEADER_SIZE`) or inside the record region
(fewer than `batch_size - HEADER_SIZE` bytes after the header) raises an
`AssertionError` rather than signalling EndOfStream. -/
theorem C1_truncation_behavior :
    (∀ (s : List Nat) (idx : Int), 0 < s.length → s.length < HEADER_SIZE →
        Batch.from_stream s idx = .error .assertFail) ∧
    (∀ (s : List Nat) (idx : Int), HEADER_SIZE ≤ s.length →
        ¬ allZeroHeader (unpackHeader (s.take HEADER_SIZE)) = true →
        ((s.drop HEADER_SIZE).length : Int) <
          (unpackHeader (s.take HEADER_SIZE)).batch_size - (HEADER_SIZE : Int) →
        Batch.from_stream s idx = .error .assertFail) ∧
    (∀ (s : List Nat) (idx : Int),
        Batch.from_stream s idx = .ok none ↔
          (s.length = 0 ∨ (HEADER_SIZE ≤ s.length ∧
            allZeroHeader (unpackHeader (s.take HEADER_SIZE)) = true))) := by
  refine ⟨?_, ?_, ?_⟩
  · intro s idx h1 h2
    simp only [Batch.from_stream, HEADER_SIZE] at *
    have hdl : (s.take 61).length = s.length := by
      rw [List.length_take]
      omega
    rw [if_neg (by omega), if_neg (by omega)]
  · intro s idx h61 hnz hlt
    simp only [Batch.from_stream, HEADER_SIZE, Nat.cast_ofNat] at *
    have hdl : (s.take 61).length = 61 := by
      rw [List.length_take]
      omega
    rw [if_pos hdl, if_neg hnz]
    have hdrop : ((s.drop 61).length : Int) = (s.length : Int) - 61 := by
      rw [List.length_drop]
      omega
    by_cases hneg : (unpackHeader (s.take 61)).batch_size - (61 : Int) < 0
    · rw [if_pos hneg, if_neg (by omega)]
    · rw [if_neg hneg]
      have htk : (s.drop 61).take
          ((unpackHeader (s.take 61)).batch_size - (61 : Int)).toNat =
            s.drop 61 := by
        apply List.take_of_length_le
        omega
      rw [htk, if_neg (by omega)]
  · intro s idx
    simp only [Batch.from_stream, HEADER_SIZE, Nat.cast_ofNat]
    by_cases h61 : (s.take 61).length = 61
    · rw [if_pos h61]
      have hlen : 61 ≤ s.length := by
        rw [List.length_take] at h61
        omega
      by_cases hz : allZeroHeader (unpackHeader (s.take 61)) = true
      · rw [if_pos hz]
        exact ⟨fun _ => Or.inr ⟨hlen, hz⟩, fun _ => rfl⟩
      · rw [if_neg hz]
        constructor
        · intro hok
          exfalso
          by_cases hc : (((if (unpackHeader (s.take 61)).batch_size - (61 : Int) < 0
              then s.drop 61
              else (s.drop 61).take
                ((unpackHeader (s.take 61)).batch_size - (61 : Int)).toNat).length : Int) =
              (unpackHeader (s.take 61)).batch_size - (61 : Int))
          · rw [if_pos hc] at hok
            rcases hinit : Batch.init idx (unpackHeader (s.take 61)) _ with e | b
            · rw [hinit] at hok
              simp [Except.map] at hok
            · rw [hinit] at hok
              simp [Except.map] at hok
          · rw [if_neg hc] at hok
            simp at hok
        · rintro (h0 | ⟨-, hz'⟩)
          · omega
          · exact absurd hz' hz
    · rw [if_neg h61]
      have hlt : s.length < 61 := by
        rw [List.length_take] at h61
        omega
      by_cases h0 : (s.take 61).length = 0
      · rw [if_pos h0]
        have hs0 : s.length = 0 := by
          rw [List.length_take] at h0
          omega
        simp [hs0]
      · rw [if_neg h0]
        have hs0 : s.length ≠ 0 := by
          rw [List.length_take] at h0
          omega
        constructor
        · intro hok
          exact absurd hok (by simp)
        · rintro (hc | ⟨hc, -⟩)
          · exact absurd hc hs0
          · omega

/-- Witness for the amended C1 at concrete streams: a one-byte stream and a
61-byte stream truncated inside the record region both raise, the empty
stream and the all-zero region signal clean EndOfStream. -/
theorem C1_truncation_behavior_witness :
    Batch.from_stream [0] 0 = .error .assertFail ∧
    Batch.from_stream wTruncStream 0 = .error .assertFail ∧
    Batch.from_stream [] 0 = .ok none ∧
    Batch.from_stream (List.replicate 61 0) 0 = .ok none :=
  ⟨C1_truncation_behavior.1 [0] 0 (by decide) (by decide),
   C1_truncation_behavior.2.1 wTruncStream 0 (by decide) (by decide) (by decide),
   (C1_truncation_behavior.2.2 [] 0).mpr (Or.inl (by decide)),
   (C1_truncation_behavior.2.2 (List.replicate 61 0) 0).mpr
     (Or.inr ⟨by decide, by decide⟩)⟩

/-- Claim C4: a header whose 13 decoded fields are all exactly zero makes
batch decoding signal EndOfStream (no batch, no error), and a zero-filled
region of length at least `HEADER_SIZE` decodes to zero batches. -/
theorem C4_all_zero_header_eos :
    (∀ (s : List Nat) (idx : Int), HEADER_SIZE ≤ s.length →
        allZeroHeader (unpackHeader (s.take HEADER_SIZE)) = true →
        Batch.from_stream s idx = .ok none) ∧
    (∀ n : Nat, HEADER_SIZE ≤ n →
        segmentBatches (List.replicate n 0) = .ok []) := by
  have p1 : ∀ (s : List Nat) (idx : Int), HEADER_SIZE ≤ s.length →
      allZeroHeader (unpackHeader (s.take HEADER_SIZE)) = true →
      Batch.from_stream s idx = .ok none := by
    intro s idx hlen hz
    simp only [Batch.from_stream, HEADER_SIZE] at *
    have hdl : (s.take 61).length = 61 := by
      rw [List.length_take]
      omega
    rw [if_pos hdl, if_pos hz]
  refine ⟨p1, ?_⟩
  intro n hn
  have hrep : (List.replicate n 0).take HEADER_SIZE =
      List.replicate HEADER_SIZE (0 : Nat) := by
    rw [List.take_replicate]
    congr 1
    simp only [HEADER_SIZE] at *
    omega
  have hz : allZeroHeader (unpackHeader ((List.replicate n 0).take HEADER_SIZE)) = true := by
    rw [hrep]
    decide
  have hfs : Batch.from_stream (List.replicate n 0) 0 = .ok none :=
    p1 _ 0 (by simpa using hn) hz
  unfold segmentBatches
  rw [List.length_replicate]
  obtain ⟨m, rfl⟩ : ∃ m, n = m + 61 := ⟨n - 61, by simp only [HEADER_SIZE] at hn; omega⟩
  simp only [readBatchesFuel, hfs]

/-- Witness for C4 at the smallest zero-filled region. -/
theorem C4_all_zero_header_eos_witness :
    Batch.from_stream (List.replicate 61 0) 0 = .ok none ∧
    segmentBatches (List.replicate 61 0) = .ok [] :=
  ⟨C4_all_zero_header_eos.1 (List.replicate 61 0) 0 (by decide) (by decide),
   C4_all_zero_header_eos.2 61 (by decide)⟩

/-! ## Store reconstruction as a fold over decoded entries -/

theorem applyAll_eq (header : Header) (rs : List Record) :
    ∀ (kv : KvMap) (es : List KvEntry),
    decodeAllRecords header rs = .ok es →
    KvStore.applyAll kv header rs = .ok (es.foldl KvStore.apply kv) := by
  induction rs with
  | nil =>
    intro kv es h
    unfold decodeAllRecords at h
    injection h with h'
    subst h'
    rfl
  | cons r rest ih =>
    intro kv es h
    unfold decodeAllRecords at h
    rcases hd : KvStoreRecordDecoder.decode header r with e | entry <;>
      rw [hd] at h
    · exact absurd h (by simp)
    · rcases hrest : decodeAllRecords header rest with e2 | es2 <;>
        rw [hrest] at h
      · exact absurd h (by simp)
      · injection h with h'
        subst h'
        unfold KvStore.applyAll
        simp only [hd, ih (KvStore.apply kv entry) es2 hrest, List.foldl_cons]

theorem applySegment_eq (fuel : Nat) :
    ∀ (s : List Nat) (idx : Int) (kv : KvMap) (es : List KvEntry),
    segEntriesFuel fuel s idx = .ok es →
    KvStore.applySegment fuel kv s idx = .ok (es.foldl KvStore.apply kv) := by
  induction fuel with
  | zero =>
    intro s idx kv es h
    unfold segEntriesFuel at h
    injection h with h'
    subst h'
    rfl
  | succ fuel ih =>
    intro s idx kv es h
    unfold segEntriesFuel at h
    rcases hfs : Batch.from_stream s idx with e | ob <;> rw [hfs] at h
    · exact absurd h (by simp)
    · rcases ob with _ | ⟨b, rest⟩
      · simp only at h
        injection h with h'
        subst h'
        unfold KvStore.applySegment
        rw [hfs]
        rfl
      · simp only at h
        rcases hbr : batchRecords b with e | rs <;> rw [hbr] at h
        · exact absurd h (by simp)
        · simp only at h
          rcases hda : decodeAllRecords b.header rs with e | es1 <;>
            rw [hda] at h
          · exact absurd h (by simp)
          · simp only at h
            rcases hsf : segEntriesFuel fuel rest (idx + 1) with e | es2 <;>
              rw [hsf] at h
            · exact absurd h (by simp)
            · simp only at h
              injection h with h'
              subst h'
              unfold KvStore.applySegment
              simp only [hfs, hbr, applyAll_eq b.header rs kv es1 hda,
                ih rest (idx + 1) (es1.foldl KvStore.apply kv) es2 hsf,
                List.foldl_append]

theorem decodeSegs_eq :
    ∀ (fs : List (List Nat)) (kv : KvMap) (es : List KvEntry),
    segsEntries fs = .ok es →
    KvStore.decodeSegs kv fs = .ok (es.foldl KvStore.apply kv) := by
  intro fs
  induction fs with
  | nil =>
    intro kv es h
    unfold segsEntries at h
    injection h with h'
    subst h'
    rfl
  | cons f fs ih =>
    intro kv es h
    unfold segsEntries at h
    rcases hse : segEntries f with e | es1 <;> rw [hse] at h
    · exact absurd h (by simp)
    · rcases hss : segsEntries fs with e | es2 <;> rw [hss] at h
      · exact absurd h (by simp)
      · simp only at h
        injection h with h'
        subst h'
        unfold KvStore.decodeSegs
        simp only [applySegment_eq (f.length + 1) f 0 kv es1 hse,
          ih (es1.foldl KvStore.apply kv) es2 hss, List.foldl_append]

/-- The reconstruction `KvStore.decode` is the fold of `KvStore._apply` over the snapshot
entries followed by the segment entries, in replay order. -/
theorem decode_eq_fold (snapFile : Option (List Nat))
    (segFiles : List (List Nat)) (sEs gEs : List KvEntry)
    (hs : snapEntries snapFile = .ok sEs)
    (hg : segsEntries segFiles = .ok gEs) :
    KvStore.decode snapFile segFiles =
      .ok ((sEs ++ gEs).foldl KvStore.apply emptyKv) := by
  unfold snapEntries at hs
  rcases hof : KvSnapshot.ofFile snapFile with e | ⟨lo, sb⟩ <;> rw [hof] at hs
  · exact absurd hs (by simp)
  · simp only at hs
    unfold KvStore.decode
    simp only [hof, applyAll_eq sb.header sb.records emptyKv sEs hs,
      decodeSegs_eq segFiles (sEs.foldl KvStore.apply emptyKv) gEs hg,
      List.foldl_append]

theorem KvStore.apply_ne (kv : KvMap) (e : KvEntry) (K : String × List Nat)
    (h : (e.key_space, e.key_buf) ≠ K ∨ e.data = none) :
    KvStore.apply kv e K = kv K := by
  unfold KvStore.apply
  rcases hd : e.data with _ | d
  · rfl
  · rcases h with h | h
    · show (if K = (e.key_space, e.key_buf) then some d else kv K) = kv K
      rw [if_neg (fun hh => h hh.symm)]
    · rw [h] at hd
      exact absurd hd (by simp)

theorem foldl_apply_ne (es : List KvEntry) :
    ∀ (kv : KvMap) (K : String × List Nat),
    (∀ e ∈ es, (e.key_space, e.key_buf) ≠ K ∨ e.data = none) →
    (es.foldl KvStore.apply kv) K = kv K := by
  induction es with
  | nil => intro kv K _; rfl
  | cons e rest ih =>
    intro kv K h
    rw [List.foldl_cons, ih _ K (fun e2 he2 => h e2 (by simp [he2])),
      KvStore.apply_ne kv e K (h e (by simp))]

theorem KvStore.apply_hit (kv : KvMap) (e : KvEntry) (v : List Nat)
    (h : e.data = some v) :
    KvStore.apply kv e (e.key_space, e.key_buf) = some v := by
  unfold KvStore.apply
  rw [h]
  show (if (e.key_space, e.key_buf) = (e.key_space, e.key_buf)
      then some v else kv (e.key_space, e.key_buf)) = some v
  rw [if_pos rfl]

theorem foldl_last_write (kv : KvMap) (pre post : List KvEntry) (e : KvEntry)
    (v : List Nat) (hd : e.data = some v)
    (hp : ∀ e2 ∈ post,
      (e2.key_space, e2.key_buf) ≠ (e.key_space, e.key_buf) ∨ e2.data = none) :
    ((pre ++ e :: post).foldl KvStore.apply kv) (e.key_space, e.key_buf) =
      some v := by
  rw [List.foldl_append, List.foldl_cons, foldl_apply_ne post _ _ hp,
    KvStore.apply_hit _ _ _ hd]

/-- Claim C3: for every key present both in the snapshot's embedded batch
and in a later replayed segment record, the reconstructed store reports the
segment record's value — replay applies entries in order after bootstrap and
each applied entry overwrites any existing entry for its
`(keyspace, key bytes)` key, so the last non-null writer wins, superseding
snapshot entries. -/
theorem C3_last_writer_wins (snapFile : Option (List Nat))
    (segFiles : List (List Nat)) (sEs pre post : List KvEntry)
    (e1 e2 : KvEntry) (v2 : List Nat)
    (hs : snapEntries snapFile = .ok sEs)
    (hg : segsEntries segFiles = .ok (pre ++ e2 :: post))
    (_h1 : e1 ∈ sEs)
    (_h1k : (e1.key_space, e1.key_buf) = (e2.key_space, e2.key_buf))
    (h2d : e2.data = some v2)
    (hpost : ∀ e3 ∈ post,
      (e3.key_space, e3.key_buf) ≠ (e2.key_space, e2.key_buf) ∨ e3.data = none) :
    ∃ kv, KvStore.decode snapFile segFiles = .ok kv ∧
      kv (e2.key_space, e2.key_buf) = some v2 := by
  refine ⟨_, decode_eq_fold snapFile segFiles sEs (pre ++ e2 :: post) hs hg, ?_⟩
  have hassoc : sEs ++ (pre ++ e2 :: post) = (sEs ++ pre) ++ e2 :: post := by
    rw [List.append_assoc]
  rw [hassoc, foldl_last_write emptyKv (sEs ++ pre) post e2 v2 h2d hpost]

set_option maxRecDepth 1000000 in
/-- Witness for C3: a concrete snapshot asserting key
`(consensus, 0xAA) = 0x41` at offset 10 and a later segment batch asserting
the same key `= 0x42` at offset 20; the reconstructed store reports `0x42`. -/
theorem C3_last_writer_wins_witness :
    ∃ kv, KvStore.decode (some wSnapFileBytes) [wSegBytes] = .ok kv ∧
      kv ("consensus", [0xAA]) = some [0x42] :=
  C3_last_writer_wins (some wSnapFileBytes) [wSegBytes] [wSnapEntry] [] []
    wSnapEntry wSegEntry [0x42] (by decide) (by decide) (by decide) (by decide)
    (by decide) (by simp)

set_option maxRecDepth 1000000 in
/-- Counterexample to claim C5 as stated: a segment holding one CRC-valid
batch of type 5 (not the kvstore configuration batch type 4) makes store
reconstruction raise an `AssertionError` — its records are decoded, not
skipped without error. -/
theorem C5_counterexample :
    KvStore.decode (some wSnapEmptyFileBytes) [wSeg5Bytes] =
      .error .assertFail := by rfl

/-- Claim C5, amended: during store reconstruction every record of every
batch is passed to `KvStoreRecordDecoder`, which asserts that the batch
type is 4; a record of a batch of any other type therefore raises an
`AssertionError` instead of being skipped. -/
theorem C5_type_assertion (header : Header) (record : Record)
    (h : header.type ≠ 4) :
    KvStoreRecordDecoder.decode header record = .error .assertFail := by
  unfold KvStoreRecordDecoder.decode
  rw [if_neg h]

/-- Witness for the amended C5 at a concrete type-5 header. -/
theorem C5_type_assertion_witness :
    KvStoreRecordDecoder.decode wSeg5Hdr ⟨0, 0, 0, 0, none, none, []⟩ =
      .error .assertFail :=
  C5_type_assertion wSeg5Hdr ⟨0, 0, 0, 0, none, none, []⟩ (by decide)

/-- Counterexample to claim C6 as stated: with no snapshot file, store
reconstruction does not succeed — `open` raises `FileNotFoundError` and no
replay happens. -/
theorem C6_counterexample :
    KvStore.decode none [] = .error .fileNotFound ∧
    (Except.error PyErr.fileNotFound : Except PyErr KvMap) ≠ .ok emptyKv :=
  ⟨rfl, fun h => Except.noConfusion h⟩

/-- Claim C6, amended: when the snapshot file is absent, `KvStore.decode`
fails with `FileNotFoundError` for every list of segment files; the
Bootstrap phase is not skipped and the segments are not replayed. -/
theorem C6_missing_snapshot_errors (segFiles : List (List Nat)) :
    KvStore.decode none segFiles = .error .fileNotFound := rfl

/-- Claim C7: a record whose keyspace byte is not one of the defined values
0..3 decodes without raising: `_decode_ks` reports `"unknown"`, the decoded
entry carries that keyspace with the remaining key bytes, and `decode_key`
renders the raw key bytes as hex tagged with that keyspace. -/
theorem C7_unknown_keyspace :
    (∀ ks : Int, ks ≠ 0 → ks ≠ 1 → ks ≠ 2 → ks ≠ 3 →
        decode_ks ks = "unknown") ∧
    (∀ key : List Nat,
        decode_key "unknown" key = .ok ⟨"unknown", .raw (hexBytes key)⟩) ∧
    (∀ (header : Header) (record : Record) (b : Nat) (rest : List Nat)
        (d : Option (List Nat)),
        header.type = 4 → record.key = some (b :: rest) →
        toSigned 8 b ≠ 0 → toSigned 8 b ≠ 1 → toSigned 8 b ≠ 2 →
        toSigned 8 b ≠ 3 →
        readValueData record.value = .ok d →
        KvStoreRecordDecoder.decode header record =
          .ok ⟨header.first_ts, header.base_offset + record.offset_delta,
            "unknown", rest, d⟩) := by
  have p1 : ∀ ks : Int, ks ≠ 0 → ks ≠ 1 → ks ≠ 2 → ks ≠ 3 →
      decode_ks ks = "unknown" := by
    intro ks h0 h1 h2 h3
    unfold decode_ks
    rw [if_neg h0, if_neg h1, if_neg h2, if_neg h3]
  refine ⟨p1, ?_, ?_⟩
  · intro key
    unfold decode_key
    rw [if_neg (by decide), if_neg (by decide)]
  · intro header record b rest d hT hkey h0 h1 h2 h3 hval
    unfold KvStoreRecordDecoder.decode
    rw [if_pos hT, hkey]
    have hrd : Reader.read_int8 ⟨(some (b :: rest)).getD []⟩ =
        .ok (toSigned 8 b, ⟨rest⟩) := by
      unfold Reader.read_int8 Reader.readSigned Reader.read_bytes
      rw [if_pos (by simp)]
      simp [fromLE]
    rw [hrd, hval]
    show (Except.ok ⟨header.first_ts, header.base_offset + record.offset_delta,
      decode_ks (toSigned 8 b), rest, d⟩ : Except PyErr KvEntry) = _
    rw [p1 (toSigned 8 b) h0 h1 h2 h3]

/-- Witness for C7 at keyspace byte 99. -/
theorem C7_unknown_keyspace_witness :
    decode_ks 99 = "unknown" ∧
    decode_key "unknown" [0xAB] = .ok ⟨"unknown", .raw (hexBytes [0xAB])⟩ ∧
    KvStoreRecordDecoder.decode
      { wSegHdr0 with batch_size := 0, base_offset := 0 }
      ⟨0, 0, 0, 0, some [99, 0xAB], some [0], []⟩ =
      .ok ⟨0, 0, "unknown", [0xAB], none⟩ :=
  ⟨C7_unknown_keyspace.1 99 (by decide) (by decide) (by decide) (by decide),
   C7_unknown_keyspace.2.1 [0xAB],
   C7_unknown_keyspace.2.2 _ _ 99 [0xAB] none (by decide) (by decide)
     (by decide) (by decide) (by decide) (by decide) (by decide)⟩

/-- Counterexample to claim C8 as stated: a consensus key with unrecognized
type tag 99 decodes its value to Python `None`, not to the raw value bytes
rendered as hex. -/
theorem C8_counterexample :
    decode_key "consensus" ([99] ++ leBytes 8 7) =
      .ok ⟨"consensus", .raft 99 "unknown" 7⟩ ∧
    decode_value ⟨"consensus", .raft 99 "unknown" 7⟩ [0xAB] = .ok .nullV ∧
    (Except.ok KvValue.nullV : Except PyErr KvValue) ≠
      .ok (.rawHex (hexBytes [0xAB])) := by decide

/-- Claim C8, amended: unrecognized type tags never raise, but they do not
all degrade to hex: an unrecognized consensus type decodes to `None`, an
unrecognized storage type to the empty dict, and only keyspaces other than
consensus/storage render the raw value bytes as hex. -/
theorem C8_unknown_type_degradation :
    (∀ (t : Int) (v : List Nat),
        t ≠ 0 → t ≠ 1 → t ≠ 2 → t ≠ 3 → t ≠ 4 → t ≠ 5 →
        decode_raft_value t v = .ok .nullV) ∧
    (∀ (t : Int) (v : List Nat), t ≠ 0 →
        decode_storage_value t v = .ok .emptyDict) ∧
    (∀ (ks : String) (kd : KeyData) (v : List Nat),
        ks ≠ "consensus" → ks ≠ "storage" →
        decode_value ⟨ks, kd⟩ v = .ok (.rawHex (hexBytes v))) := by
  refine ⟨?_, ?_, ?_⟩
  · intro t v h0 h1 h2 h3 h4 h5
    unfold decode_raft_value
    rw [if_neg h0, if_neg h1, if_neg h2, if_neg h3, if_neg h4, if_neg h5]
  · intro t v h0
    unfold decode_storage_value
    rw [if_neg h0]
  · intro ks kd v h1 h2
    simp only [decode_value]
    rw [if_neg h1, if_neg h2]

/-- Witness for the amended C8 at concrete unrecognized tags. -/
theorem C8_unknown_type_degradation_witness :
    decode_raft_value 99 [0xAB] = .ok .nullV ∧
    decode_storage_value 3 [0xAB] = .ok .emptyDict ∧
    decode_value ⟨"cluster", .raw (hexBytes [0xCD])⟩ [0xAB] =
      .ok (.rawHex (hexBytes [0xAB])) :=
  ⟨C8_unknown_type_degradation.1 99 [0xAB] (by decide) (by decide) (by decide)
     (by decide) (by decide) (by decide),
   C8_unknown_type_degradation.2.1 3 [0xAB] (by decide),
   C8_unknown_type_degradation.2.2 "cluster" (.raw (hexBytes [0xCD])) [0xAB]
     (by decide) (by decide)⟩

/-- Claim C9: applying an entry whose decoded value is `None` leaves the
store mapping entirely unchanged — a null value neither removes nor
overwrites an existing entry, so a null is not a tombstone. -/
theorem C9_null_data_no_op (kv : KvMap) (e : KvEntry) (h : e.data = none) :
    KvStore.apply kv e = kv := by
  unfold KvStore.apply
  rw [h]

/-- Witness for C9 at a concrete null-valued entry. -/
theorem C9_null_data_no_op_witness :
    KvStore.apply emptyKv ⟨0, 0, "consensus", [0xAA], none⟩ = emptyKv :=
  C9_null_data_no_op emptyKv ⟨0, 0, "consensus", [0xAA], none⟩ rfl

/-- Claim C10: in record decoding, a varint-decoded key or value length
that is less than or equal to zero — negative values included — yields a
null field with no bytes consumed beyond the varint itself and no error
(`readKeyField` is the key/value field reader of `RecordIter.__next__`). -/
theorem C10_nonpositive_length_null (r r' : Reader) (len : Int)
    (hv : Reader.read_varint r = .ok (len, r')) (hle : len ≤ 0) :
    readKeyField r = .ok (none, r') := by
  unfold readKeyField
  simp only [hv]
  rw [if_neg (by omega)]

/-- Witness for C10 at the varint encodings of `-1` and `0`. -/
theorem C10_nonpositive_length_null_witness :
    Reader.read_varint ⟨[1]⟩ = .ok (-1, ⟨[]⟩) ∧
    readKeyField ⟨[1]⟩ = .ok (none, ⟨[]⟩) ∧
    Reader.read_varint ⟨[0]⟩ = .ok (0, ⟨[]⟩) ∧
    readKeyField ⟨[0]⟩ = .ok (none, ⟨[]⟩) :=
  ⟨by decide,
   C10_nonpositive_length_null ⟨[1]⟩ ⟨[]⟩ (-1) (by decide) (by decide),
   by decide,
   C10_nonpositive_length_null ⟨[0]⟩ ⟨[]⟩ 0 (by decide) (by decide)⟩

end RP

